import Mathlib

/-!
Shallow embedding of the `cx` XDP packet-filter (src/src/xdp.c, src/include/maps.h,
src/scripts/wl.c) and proofs about the claims of its specification.

Modelling conventions:
* Machine integers are `Nat` with explicit `% 2^32` / `% 2^64` where C truncation or
  wrap-around matters.  `x &&& m`, `x ||| m`, `x ^^^ m` are the C bitwise operators.
* A packet is its byte list (`List Nat`, each entry a byte).  `bpf_xdp_load_bytes`
  is total in C and returns 0 on success and -EFAULT when the load would cross the
  data end, leaving the (zero-initialised) destination untouched; `ldN`/`ldRes`
  mirror this.
* Multi-byte loads assemble little-endian, matching the x86 data plane the C code
  is compiled for (so the constant `ETH_P_IP_BE = 0x0008u` compares equal to the
  wire bytes 08 00 exactly as in the source).
* BPF maps are total functions; hash maps map keys to `Option` values,
  array maps (`panic_flag`, `global_bypass`, `acl_ports`, `cfg_map`,
  `flow_table_v4/6`) are pre-allocated, so a lookup succeeds exactly when the
  32-bit index read from the key pointer is below `max_entries`.
* 128-bit IPv6 values are four little-endian 32-bit words (`In6`), matching the
  word-wise `__u32*` accesses of the source (`mask_in6`, `clr_in6`, key builds).
* `bpf_ktime_get_ns` results are passed in explicitly, one parameter per call
  site, in program order.
* `bpf_tail_call` either succeeds (the loader populates `jmp_table`:
  `STATE_IDX ↦ xdp_state`, `SURICATA_IDX ↦ xdp_suricata_gate`) or falls through;
  where both are possible the model takes the outcome as a `Bool` parameter.
-/

namespace CX

/-! ## Machine-integer helpers -/

def U32 : Nat := 2 ^ 32

def U64 : Nat := 2 ^ 64

/-- Numeric value of a C boolean. -/
def b2n (b : Bool) : Nat := if b then 1 else 0

/-- Unary minus on `__u32`. -/
def neg32 (x : Nat) : Nat := (U32 - x % U32) % U32

/-- Unary minus on `__u64`. -/
def neg64 (x : Nat) : Nat := (U64 - x % U64) % U64

/-- Bitwise complement on `__u32` (for `x < 2^32`). -/
def not32 (x : Nat) : Nat := (U32 - 1) ^^^ x % U32

/-- Bitwise complement on `__u64` (for `x < 2^64`). -/
def not64 (x : Nat) : Nat := (U64 - 1) ^^^ x % U64

/-- Wrap-around subtraction on `__u64`. -/
def sub64 (a b : Nat) : Nat := (a % U64 + (U64 - b % U64)) % U64

theorem sub64_of_le {a b : Nat} (hba : b ≤ a) (ha : a < U64) : sub64 a b = a - b := by
  unfold sub64
  have hb : b < U64 := Nat.lt_of_le_of_lt hba ha
  rw [Nat.mod_eq_of_lt ha, Nat.mod_eq_of_lt hb]
  have h1 : a + (U64 - b) = (a - b) + U64 := by omega
  rw [h1, Nat.add_mod_right, Nat.mod_eq_of_lt (by omega)]

theorem and_allones32 {x : Nat} (h : x < U32) : x &&& (U32 - 1) = x := by
  have h' : x < 2 ^ 32 := h
  have := Nat.and_pow_two_sub_one_of_lt_two_pow h'
  simpa [U32] using this

theorem and_allones64 {x : Nat} (h : x < U64) : x &&& (U64 - 1) = x := by
  have h' : x < 2 ^ 64 := h
  have := Nat.and_pow_two_sub_one_of_lt_two_pow h'
  simpa [U64] using this

theorem le_one_cases {x : Nat} (h : x ≤ 1) : x = 0 ∨ x = 1 := by omega

/-- Splitting `&&&` along a byte boundary. -/
theorem and_byte_split (b d a c : Nat) (hb : b < 256) (hd : d < 256) :
    (b + 256 * a) &&& (d + 256 * c) = (b &&& d) + 256 * (a &&& c) := by
  have h256 : (256 : Nat) = 2 ^ 8 := by norm_num
  apply Nat.eq_of_testBit_eq
  intro i
  have hbd : b &&& d < 256 := by
    calc b &&& d ≤ b := Nat.and_le_left
    _ < 256 := hb
  rw [show b + 256 * a = 2 ^ 8 * a + b by omega,
      show d + 256 * c = 2 ^ 8 * c + d by omega,
      show (b &&& d) + 256 * (a &&& c) = 2 ^ 8 * (a &&& c) + (b &&& d) by omega]
  rw [Nat.testBit_and,
      Nat.testBit_mul_pow_two_add a (by omega : b < 2 ^ 8) i,
      Nat.testBit_mul_pow_two_add c (by omega : d < 2 ^ 8) i,
      Nat.testBit_mul_pow_two_add (a &&& c) (by omega : b &&& d < 2 ^ 8) i]
  by_cases hi : i < 8 <;> simp [hi, Nat.testBit_and]

/-! ## Byte-level packet access -/

/-- Bytes `[off, off+n)` of the packet, if they are within the data end. -/
def bytesAt (p : List Nat) (off n : Nat) : Option (List Nat) :=
  if off + n ≤ p.length then some ((p.drop off).take n) else none

/-- Little-endian value of a byte list. -/
def leVal : List Nat → Nat
  | [] => 0
  | b :: bs => b + 256 * leVal bs

/-- Little-endian load of `n` bytes at `off`. -/
def ldN (p : List Nat) (off n : Nat) : Option Nat := (bytesAt p off n).map leVal

/-- Return value of `bpf_xdp_load_bytes`: 0 on success, `(u32)(-EFAULT)` on failure. -/
def ldRes (p : List Nat) (off n : Nat) : Nat :=
  if (bytesAt p off n).isSome then 0 else U32 - 14

/-- Well-formed packet: every entry is a byte. -/
abbrev Wf (p : List Nat) : Prop := ∀ b ∈ p, b < 256

/-! ## Helper lemmas about loads -/

theorem bytesAt_eq_some {p : List Nat} {off n : Nat} {b : List Nat}
    (h : bytesAt p off n = some b) : b.length = n ∧ ∀ x ∈ b, x ∈ p := by
  unfold bytesAt at h
  split at h
  · next hle =>
    cases h
    constructor
    · simp [List.length_take, List.length_drop]; omega
    · intro x hx
      exact List.drop_subset off p (List.take_subset n _ hx)
  · exact absurd h (by simp)

theorem leVal_lt {b : List Nat} (h : ∀ x ∈ b, x < 256) : leVal b < 256 ^ b.length := by
  induction b with
  | nil => simp [leVal]
  | cons x bs ih =>
    have hx : x < 256 := h x (by simp)
    have hbs : leVal bs < 256 ^ bs.length := ih (fun y hy => h y (by simp [hy]))
    simp only [leVal, List.length_cons, pow_succ]
    calc x + 256 * leVal bs < 256 * (leVal bs + 1) := by omega
    _ ≤ 256 * 256 ^ bs.length := Nat.mul_le_mul_left _ (by omega)
    _ = 256 ^ bs.length * 256 := by ring

theorem ldN_getD_lt {p : List Nat} (hw : Wf p) (off n : Nat) :
    (ldN p off n).getD 0 < 256 ^ n := by
  unfold ldN
  cases h : bytesAt p off n with
  | none =>
    simp only [Option.map_none', Option.getD_none]
    positivity
  | some b =>
    obtain ⟨hlen, hmem⟩ := bytesAt_eq_some h
    have := leVal_lt (fun x hx => hw x (hmem x hx))
    simpa [hlen] using this

theorem ldN_getD_lt_u32 {p : List Nat} (hw : Wf p) (off : Nat) :
    (ldN p off 4).getD 0 < U32 := by
  have := ldN_getD_lt hw off 4
  calc (ldN p off 4).getD 0 < 256 ^ 4 := this
  _ ≤ U32 := by norm_num [U32]

/-! ## eq32 (src/src/xdp.c:156) -/

/-- Branch-free equality mask: `-((a ^ b - 1) >> 31)` in 32-bit arithmetic. -/
def eq32 (a b : Nat) : Nat :=
  let x := a ^^^ b
  let s := (x + (U32 - 1)) % U32
  neg32 (s >>> 31)

theorem eq32_self (a : Nat) : eq32 a a = U32 - 1 := by
  unfold eq32
  simp only [Nat.xor_self]
  decide

theorem eq32_ne {a b : Nat} (ha : a < 2 ^ 31) (hb : b < 2 ^ 31) (hne : a ≠ b) :
    eq32 a b = 0 := by
  have hx0 : a ^^^ b ≠ 0 := fun h => hne (Nat.xor_eq_zero.mp h)
  have hx1 : 1 ≤ a ^^^ b := Nat.one_le_iff_ne_zero.mpr hx0
  have hxlt : a ^^^ b < 2 ^ 31 := Nat.xor_lt_two_pow ha hb
  simp only [eq32, neg32]
  set x := a ^^^ b with hxdef
  have h1 : (x + (U32 - 1)) % U32 = x - 1 := by
    unfold U32; omega
  rw [h1]
  have h2 : (x - 1) >>> 31 = 0 := by
    rw [Nat.shiftRight_eq_div_pow]
    exact Nat.div_eq_of_lt (by omega)
  rw [h2]
  norm_num [U32]

theorem eq32_cases (a b : Nat) : eq32 a b = 0 ∨ eq32 a b = U32 - 1 := by
  simp only [eq32, neg32]
  set s := ((a ^^^ b) + (U32 - 1)) % U32 with hs
  have hslt : s < U32 := Nat.mod_lt _ (by norm_num [U32])
  rw [Nat.shiftRight_eq_div_pow]
  have h2 : s / 2 ^ 31 = 0 ∨ s / 2 ^ 31 = 1 := by
    have hd : s / 2 ^ 31 < 2 := by
      apply Nat.div_lt_of_lt_mul
      calc s < U32 := hslt
      _ = 2 ^ 31 * 2 := by norm_num [U32]
    omega
  rcases h2 with h | h <;> rw [h]
  · left; norm_num [U32]
  · right; norm_num [U32]

/-- C10: on operands below `2^31` (all call sites pass at most 16-bit values),
`eq32` returns the all-ones mask exactly on equality and 0 otherwise. -/
theorem c10_eq32_correct (a b : Nat) (ha : a < 2 ^ 31) (hb : b < 2 ^ 31) :
    eq32 a b = if a = b then U32 - 1 else 0 := by
  by_cases h : a = b
  · subst h; simp [eq32_self]
  · simp [h, eq32_ne ha hb h]

/-- Witness for C10 at concrete inputs. -/
theorem c10_eq32_correct_witness :
    ((3 : Nat) < 2 ^ 31 ∧ eq32 3 3 = U32 - 1) ∧ eq32 3 5 = 0 := by
  refine ⟨⟨by norm_num, ?_⟩, ?_⟩
  · simpa using c10_eq32_correct 3 3 (by norm_num) (by norm_num)
  · simpa using c10_eq32_correct 3 5 (by norm_num) (by norm_num)

/-! ## Data model (src/include/maps.h structures, as used by the data plane) -/

/-- 128-bit value as four little-endian 32-bit words (the `__u32*` view the
source uses for `struct in6_addr`). -/
structure In6 where
  a : Nat
  b : Nat
  c : Nat
  d : Nat
deriving DecidableEq

def In6.zero : In6 := ⟨0, 0, 0, 0⟩

/-- Load of 16 bytes at `off` into an `in6_addr` (all-or-nothing; on failure the
zero-initialised destination is unchanged). -/
def ld16B (p : List Nat) (off : Nat) : In6 :=
  if (bytesAt p off 16).isSome then
    ⟨(ldN p off 4).getD 0, (ldN p (off + 4) 4).getD 0,
     (ldN p (off + 8) 4).getD 0, (ldN p (off + 12) 4).getD 0⟩
  else In6.zero

/-- `mask_in6` (src/src/xdp.c:162): and every word with `keep`. -/
def mask_in6 (x : In6) (keep : Nat) : In6 :=
  ⟨x.a &&& keep, x.b &&& keep, x.c &&& keep, x.d &&& keep⟩

/-- `struct wl_v6_key` (family, 3 pad bytes zero, 16-byte address). -/
structure WlKey where
  family : Nat
  addr : In6
deriving DecidableEq

/-- `struct flow_key` (IPv4 5-tuple). -/
structure FlowKey where
  saddr : Nat
  daddr : Nat
  sport : Nat
  dport : Nat
  proto : Nat
deriving DecidableEq

/-- `struct ids_flow_v6_key` (IPv6 5-tuple). -/
structure FlowKey6 where
  saddr : In6
  daddr : In6
  sport : Nat
  dport : Nat
  proto : Nat
deriving DecidableEq

/-- `struct bypass_v4`. -/
structure BypassV4 where
  saddr : Nat
  daddr : Nat
  sport : Nat
  dport : Nat
  proto : Nat
  dir : Nat
deriving DecidableEq

/-- `struct bypass_v6`. -/
structure BypassV6 where
  saddr : In6
  daddr : In6
  sport : Nat
  dport : Nat
  proto : Nat
  dir : Nat
deriving DecidableEq

/-- `struct ip_key` (TCP rate-limit key). -/
structure IpKey where
  is_v6 : Nat
  addr : In6
deriving DecidableEq

/-- `struct udp_key` (UDP token-bucket key). -/
structure UdpKey where
  is_v6 : Nat
  addr : In6
deriving DecidableEq

/-- `struct rate_limit`. -/
structure RateLimit where
  window_start : Nat
  syn_count : Nat
deriving DecidableEq

/-- `struct udp_meta`. -/
structure UdpMeta where
  last_seen : Nat
  tokens : Nat
deriving DecidableEq

/-- `struct rl_cfg`. -/
structure RlCfg where
  ns : Nat
  br : Nat
deriving DecidableEq

/-- Hash-map update (`bpf_map_update_elem`, BPF_ANY). -/
def mupd {K V : Type} [DecidableEq K] (m : K → Option V) (k : K) (v : V) :
    K → Option V :=
  fun k' => if k' = k then some v else m k'

/-- Hash-map delete (`bpf_map_delete_elem`). -/
def mdel {K V : Type} [DecidableEq K] (m : K → Option V) (k : K) :
    K → Option V :=
  fun k' => if k' = k then none else m k'

/-- All BPF maps of the program (one CPU's view for per-CPU maps).  Array maps
with a single slot are the stored value itself; `flow_table_v4`/`v6` are
pre-allocated per-CPU arrays of `FLOW_TAB_SZ = 65536` records. -/
structure Tables where
  whitelist : WlKey → Option Nat
  panicFlag : Nat
  globalBypass : Nat
  aclPorts : Nat
  ipv4_drop : Nat → Option Nat
  ipv6_drop : In6 → Option Nat
  flow_table_v4 : Nat → BypassV4
  flow_table_v6 : Nat → BypassV6
  tcp_flow : FlowKey → Option Nat
  udp_flow : FlowKey → Option Nat
  tcp6_flow : FlowKey6 → Option Nat
  udp6_flow : FlowKey6 → Option Nat
  tcp_rate : IpKey → Option RateLimit
  udp_rl : UdpKey → Option UdpMeta
  cfg : RlCfg
  statFast : Nat
  statSlow : Nat

/-- A lookup on a pre-allocated array map of `FLOW_TAB_SZ` entries: it succeeds
exactly when the 32-bit index — the first four bytes read from the key pointer —
is below `max_entries`. -/
def array_lookup_v4 (m : Nat → BypassV4) (idx : Nat) : Option BypassV4 :=
  if idx < 65536 then some (m idx) else none

def array_lookup_v6 (m : Nat → BypassV6) (idx : Nat) : Option BypassV6 :=
  if idx < 65536 then some (m idx) else none

theorem b2n_le_one (b : Bool) : b2n b ≤ 1 := by unfold b2n; split <;> omega

theorem or_le_one {x y : Nat} (hx : x ≤ 1) (hy : y ≤ 1) : x ||| y ≤ 1 := by
  rcases le_one_cases hx with h | h <;> rcases le_one_cases hy with h' | h' <;>
    subst h <;> subst h' <;> decide

/-! ## Whitelist gate `xdp_wl_pass` (src/src/xdp.c:221) -/

/-- IPv4 ethertype mask `v4 = eq32(eth, ETH_P_IP_BE)`. -/
def wlV4 (p : List Nat) : Nat := eq32 ((ldN p 12 2).getD 0) 0x0008

/-- IPv6 ethertype mask `v6 = eq32(eth, ETH_P_IPV6_BE)`. -/
def wlV6 (p : List Nat) : Nat := eq32 ((ldN p 12 2).getD 0) 0xDD86

/-- IPv4 whitelist key: family `AF_INET = 2`, the 4 source bytes at offset
`ETH_HLEN + 12` in the low word of the zeroed 16-byte address. -/
def wlK4 (p : List Nat) : WlKey := ⟨2, ⟨(ldN p 26 4).getD 0, 0, 0, 0⟩⟩

/-- IPv6 whitelist key: family `AF_INET6 = 10`, the 16 source bytes at
offset `ETH_HLEN + 8`. -/
def wlK6 (p : List Nat) : WlKey := ⟨10, ld16B p 22⟩

/-- Accumulated `err` of the gate: the ethertype load plus the IPv6 source
load masked with `-v6`.  (`-v6` of the all-ones mask is the 32-bit value 1 and
the error code `(u32)(-EFAULT)` is even, so the masked term is always 0; it is
kept verbatim.) -/
def wlErr (p : List Nat) : Nat :=
  ldRes p 12 2 ||| (ldRes p 22 16 &&& neg32 (wlV6 p))

/-- Whitelist lookup hit `(v4 && lookup(k4)) || (v6 && lookup(k6))`. -/
def wlHit (wl : WlKey → Option Nat) (p : List Nat) : Bool :=
  (wlV4 p != 0 && (wl (wlK4 p)).isSome) || (wlV6 p != 0 && (wl (wlK6 p)).isSome)

/-- The ICMP mask `is_icmp = icmp4 | icmp6` of the gate. -/
def wlIcmp4 (p : List Nat) : Nat :=
  let v4 := wlV4 p
  let v6 := wlV6 p
  let l4 := (((ldN p 23 1).getD 0) &&& v4) ||| (((ldN p 20 1).getD 0) &&& v6)
  v4 &&& eq32 l4 1

def wlIcmp6 (p : List Nat) : Nat :=
  let v4 := wlV4 p
  let v6 := wlV6 p
  let l4 := (((ldN p 23 1).getD 0) &&& v4) ||| (((ldN p 20 1).getD 0) &&& v6)
  v6 &&& eq32 l4 58

/-- The echo mask `echo4 | echo6` of the gate (ICMP type loaded at the start
of the L4 header). -/
def wlEcho (p : List Nat) : Nat :=
  let v4 := wlV4 p
  let v6 := wlV6 p
  let ihl := (((ldN p 14 1).getD 0) &&& 0x0F) <<< 2
  let off := 14 + (ihl &&& v4) + (40 &&& v6)
  let ty := (ldN p off 1).getD 0
  (wlIcmp4 p &&& (eq32 ty 0 ||| eq32 ty 8)) |||
    (wlIcmp6 p &&& (eq32 ty 128 ||| eq32 ty 129))

/-- The gate's `drop` bit: unsolicited echo from a non-whitelisted source, or
a (tracked) parse error. -/
def wlDrop (wl : WlKey → Option Nat) (p : List Nat) : Nat :=
  ((b2n (!(wlHit wl p)) &&& (wlIcmp4 p ||| wlIcmp6 p)) &&& wlEcho p) |||
    b2n (wlErr p != 0)

/-- Result of `xdp_wl_pass`: `none` when the program tail-calls to the panic
stage (`call = !(hit | drop)`, the pipeline continues), otherwise the returned
verdict (`XDP_PASS = 2`, `XDP_DROP = 1`) computed by the branch-free selects of
lines 263-264. -/
def xdp_wl_pass (wl : WlKey → Option Nat) (p : List Nat) : Option Nat :=
  let hit := wlHit wl p
  let drop := wlDrop wl p
  if b2n hit ||| drop = 0 then none
  else
    let res := 2 ^^^ (3 &&& neg32 drop)
    some (res ^^^ ((res ^^^ 2) &&& neg32 (b2n hit)))

/-- Verdict of the whole pipeline, with an arbitrary continuation verdict
`rest` covering whatever the downstream stages (panic, ACL, blacklist, flow
cache, deep inspection, rate limit) would produce when the whitelist gate
hands off — so a theorem quantifying over `rest` holds regardless of any other
table state. -/
def pipeline_from (rest : Nat) (wl : WlKey → Option Nat) (p : List Nat) : Nat :=
  (xdp_wl_pass wl p).getD rest

theorem wlDrop_le_one (wl : WlKey → Option Nat) (p : List Nat) :
    wlDrop wl p ≤ 1 := by
  unfold wlDrop
  apply or_le_one _ (b2n_le_one _)
  calc (b2n (!(wlHit wl p)) &&& (wlIcmp4 p ||| wlIcmp6 p)) &&& wlEcho p
      ≤ b2n (!(wlHit wl p)) &&& (wlIcmp4 p ||| wlIcmp6 p) := Nat.and_le_left
  _ ≤ b2n (!(wlHit wl p)) := Nat.and_le_left
  _ ≤ 1 := b2n_le_one _

/-- Concrete ICMPv4 echo request from 8.8.8.8 (ethertype 0x0800 at bytes
12-13, IHL 5, protocol 1 at byte 23, source at 26-29, ICMP type 8 at 34). -/
def c1pkt : List Nat :=
  [0, 0, 0, 0, 0, 0, 0, 0, 0, 0, 0, 0,
   0x08, 0x00,
   0x45, 0, 0, 0, 0, 0, 0, 0, 0, 1, 0, 0,
   8, 8, 8, 8,
   1, 2, 3, 4,
   8, 0, 0, 0, 0, 0]

/-- C1: a packet whose source-address key (family and address, as the gate
builds them) is present in the whitelist is passed by `xdp_wl_pass` itself
— no tail call happens — and hence the pipeline verdict is `XDP_PASS = 2`
for every possible continuation, i.e. regardless of the panic flag, ACL,
blacklist, flow-cache, bypass-cache and rate-limit state, and even when the
ICMP-echo drop rule or a parser error sets the gate's own drop bit. -/
theorem c1_whitelist_pass (wl : WlKey → Option Nat) (p : List Nat) (rest : Nat)
    (h : wlHit wl p = true) :
    xdp_wl_pass wl p = some 2 ∧ pipeline_from rest wl p = 2 := by
  have hd : wlDrop wl p ≤ 1 := wlDrop_le_one wl p
  have hmain : xdp_wl_pass wl p = some 2 := by
    unfold xdp_wl_pass
    rw [h]
    rcases le_one_cases hd with h0 | h0 <;> rw [h0] <;> decide
  exact ⟨hmain, by unfold pipeline_from; rw [hmain]; rfl⟩

/-- Witness for C1: an ICMPv4 echo request (which the gate would otherwise
drop) from whitelisted source 8.8.8.8 is passed. -/
theorem c1_whitelist_pass_witness :
    wlHit (fun k => if k = ⟨2, ⟨0x08080808, 0, 0, 0⟩⟩ then some 1 else none)
      c1pkt = true ∧
    xdp_wl_pass (fun k => if k = ⟨2, ⟨0x08080808, 0, 0, 0⟩⟩ then some 1 else none)
      c1pkt = some 2 ∧
    pipeline_from 1 (fun k => if k = ⟨2, ⟨0x08080808, 0, 0, 0⟩⟩ then some 1 else none)
      c1pkt = 2 := by
  refine ⟨by decide, ?_⟩
  have := c1_whitelist_pass
    (fun k => if k = ⟨2, ⟨0x08080808, 0, 0, 0⟩⟩ then some 1 else none)
    c1pkt 1 (by decide)
  exact this

/-! ## Small bit-level helper lemmas -/

theorem b2n_eq_one {b : Bool} : b2n b = 1 ↔ b = true := by
  unfold b2n; cases b <;> simp

theorem neg32_one : neg32 1 = U32 - 1 := by norm_num [neg32, U32]

theorem neg32_zero : neg32 0 = 0 := by norm_num [neg32, U32]

theorem or_eq_one {x y : Nat} (hx : x ≤ 1) (hy : y ≤ 1) :
    (x ||| y = 1) ↔ (x = 1 ∨ y = 1) := by
  rcases le_one_cases hx with h | h <;> rcases le_one_cases hy with h' | h' <;>
    subst h <;> subst h' <;> simp

theorem and_one_of_le_one {x : Nat} (hx : x ≤ 1) : x &&& 1 = x := by
  rw [Nat.and_one_is_mod]; omega

theorem verdict_eq_one_iff {h : Nat} (hle : h ≤ 1) :
    (2 ^^^ (3 &&& neg32 h) = 1) ↔ h = 1 := by
  rcases le_one_cases hle with h0 | h0 <;> subst h0 <;>
    simp [neg32_zero, neg32_one] <;> decide

set_option maxRecDepth 8192

theorem byte_and_f0 {x : Nat} (h : x < 256) :
    (x &&& 0xF0 = 0x10) ↔ (16 ≤ x ∧ x ≤ 31) := by
  have H : ∀ y : Fin 256, ((y.val &&& 0xF0 = 0x10) ↔ (16 ≤ y.val ∧ y.val ≤ 31)) := by
    decide
  exact H ⟨x, h⟩

theorem byte_and_fe {x : Nat} (h : x < 256) :
    (x &&& 0xFE = 0xFC) ↔ (x = 252 ∨ x = 253) := by
  have H : ∀ y : Fin 256, ((y.val &&& 0xFE = 0xFC) ↔ (y.val = 252 ∨ y.val = 253)) := by
    decide
  exact H ⟨x, h⟩

theorem byte_and_c0 {x : Nat} (h : x < 256) :
    (x &&& 0xC0 = 0x80) ↔ (128 ≤ x ∧ x ≤ 191) := by
  have H : ∀ y : Fin 256, ((y.val &&& 0xC0 = 0x80) ↔ (128 ≤ y.val ∧ y.val ≤ 191)) := by
    decide
  exact H ⟨x, h⟩

/-- Two-byte mask application on a little-endian value. -/
theorem and_mask2 (b0 b1 r m0 m1 : Nat) (h0 : b0 < 256) (hm0 : m0 < 256)
    (h1 : b1 < 256) (hm1 : m1 < 256) :
    (b0 + 256 * (b1 + 256 * r)) &&& (m0 + 256 * m1) =
      (b0 &&& m0) + 256 * (b1 &&& m1) := by
  rw [show m0 + 256 * m1 = m0 + 256 * (m1 + 256 * 0) by ring]
  rw [and_byte_split b0 m0 _ _ h0 hm0, and_byte_split b1 m1 r 0 h1 hm1]
  simp

theorem list_len4 {b : List Nat} (h : b.length = 4) :
    ∃ x0 x1 x2 x3, b = [x0, x1, x2, x3] := by
  match b, h with
  | [x0, x1, x2, x3], _ => exact ⟨x0, x1, x2, x3, rfl⟩

/-! ## Blacklist gate `xdp_blacklist` (src/src/xdp.c:330-388) -/

/-- `is_private_ipv4` with the `bpf_htonl` constants evaluated for the
little-endian data plane: e.g. `ip & htonl(0xff000000)` is `ip & 0x000000ff`,
the first wire octet. -/
def is_private_ipv4 (ip : Nat) : Nat :=
  let a := b2n (ip &&& 0x000000FF == 0x0000000A)
  let b := b2n (ip &&& 0x0000F0FF == 0x000010AC)
  let c := b2n (ip &&& 0x0000FFFF == 0x0000A8C0)
  let d := b2n (ip &&& 0x0000FFFF == 0x0000FEA9)
  a ||| b ||| c ||| d

/-- `bl_ipv4_hit`: drop-table or private source, on a loadable IPv4 header. -/
def bl_ipv4_hit (T : Tables) (p : List Nat) (proto : Nat) : Nat :=
  let is_v4 := b2n (proto == 0x0008)
  let errv := ldRes p 26 4 &&& neg32 is_v4
  let ip := (ldN p 26 4).getD 0
  let bl := b2n (T.ipv4_drop ip).isSome
  let prv := is_private_ipv4 ip
  ((bl ||| prv) &&& is_v4) &&& b2n (errv == 0)

/-- `bl_ipv6_hit`: drop-table, ULA (`fc00::/7`) or link-local (`fe80::/10`)
source; the two leading source bytes are the low bytes of the first
little-endian word. -/
def bl_ipv6_hit (T : Tables) (p : List Nat) (proto : Nat) : Nat :=
  let is_v6 := b2n (proto == 0xDD86)
  let errv := ldRes p 22 16 &&& neg32 is_v6
  let k := ld16B p 22
  let ula := b2n ((k.a % 256) &&& 0xFE == 0xFC)
  let llnk := b2n (k.a % 256 == 0xFE) &&& b2n ((k.a / 256 % 256) &&& 0xC0 == 0x80)
  let bl := b2n (T.ipv6_drop k).isSome
  ((bl ||| ula ||| llnk) &&& is_v6) &&& b2n (errv == 0)

/-- `xdp_blacklist` verdict.  On a hit the source also deletes the parsed
5-tuple from `flow_table_v4`/`v6`; those are `BPF_MAP_TYPE_PERCPU_ARRAY` maps,
for which `bpf_map_delete_elem` always fails with `-EINVAL`, so the table
state is unchanged and only the verdict is modelled. -/
def xdp_blacklist (T : Tables) (p : List Nat) : Nat :=
  let proto := (ldN p 12 2).getD 0
  let hit := bl_ipv4_hit T p proto ||| bl_ipv6_hit T p proto
  2 ^^^ (3 &&& neg32 hit)

/-- The claim's IPv4 condition: source present in `ipv4_drop`, or inside
10/8, 172.16/12, 192.168/16 or 169.254/16 (first octets as stated). -/
def blCondV4 (T : Tables) (p : List Nat) : Prop :=
  (ldN p 12 2).getD 0 = 0x0008 ∧
  ∃ b0 b1 b2 b3, bytesAt p 26 4 = some [b0, b1, b2, b3] ∧
    ((T.ipv4_drop (leVal [b0, b1, b2, b3])).isSome = true ∨ b0 = 10 ∨
      (b0 = 172 ∧ 16 ≤ b1 ∧ b1 ≤ 31) ∨ (b0 = 192 ∧ b1 = 168) ∨
      (b0 = 169 ∧ b1 = 254))

/-- The claim's IPv6 condition: source present in `ipv6_drop`, or inside
`fc00::/7` (first octet 252 or 253) or `fe80::/10` (first octet 254, second
octet 128..191). -/
def blCondV6 (T : Tables) (p : List Nat) : Prop :=
  (ldN p 12 2).getD 0 = 0xDD86 ∧
  (bytesAt p 22 16).isSome = true ∧
  ((T.ipv6_drop (ld16B p 22)).isSome = true ∨
    (ld16B p 22).a % 256 = 252 ∨ (ld16B p 22).a % 256 = 253 ∨
    ((ld16B p 22).a % 256 = 254 ∧ 128 ≤ (ld16B p 22).a / 256 % 256 ∧
      (ld16B p 22).a / 256 % 256 ≤ 191))

theorem is_private_le_one (ip : Nat) : is_private_ipv4 ip ≤ 1 := by
  unfold is_private_ipv4
  exact or_le_one (or_le_one (or_le_one (b2n_le_one _) (b2n_le_one _)) (b2n_le_one _))
    (b2n_le_one _)

/-- Bridge between the mask arithmetic of `is_private_ipv4` and the textual
ranges, on the little-endian assembly of the four source bytes. -/
theorem is_private_ipv4_spec {b0 b1 b2 b3 : Nat} (h0 : b0 < 256) (h1 : b1 < 256) :
    (is_private_ipv4 (leVal [b0, b1, b2, b3]) = 1) ↔
      (b0 = 10 ∨ (b0 = 172 ∧ 16 ≤ b1 ∧ b1 ≤ 31) ∨ (b0 = 192 ∧ b1 = 168) ∨
        (b0 = 169 ∧ b1 = 254)) := by
  have hip : leVal [b0, b1, b2, b3] = b0 + 256 * (b1 + 256 * (b2 + 256 * b3)) := by
    simp [leVal]
  have e1 : leVal [b0, b1, b2, b3] &&& 0x000000FF = b0 &&& 0xFF := by
    rw [hip, show (0x000000FF : Nat) = 0xFF + 256 * 0x00 by norm_num,
      and_mask2 _ _ _ _ _ h0 (by norm_num) h1 (by norm_num)]
    simp
  have e2 : leVal [b0, b1, b2, b3] &&& 0x0000F0FF = (b0 &&& 0xFF) + 256 * (b1 &&& 0xF0) := by
    rw [hip, show (0x0000F0FF : Nat) = 0xFF + 256 * 0xF0 by norm_num,
      and_mask2 _ _ _ _ _ h0 (by norm_num) h1 (by norm_num)]
  have e3 : leVal [b0, b1, b2, b3] &&& 0x0000FFFF = (b0 &&& 0xFF) + 256 * (b1 &&& 0xFF) := by
    rw [hip, show (0x0000FFFF : Nat) = 0xFF + 256 * 0xFF by norm_num,
      and_mask2 _ _ _ _ _ h0 (by norm_num) h1 (by norm_num)]
  have hb0 : b0 &&& 0xFF = b0 := by
    have h' : b0 < 2 ^ 8 := by omega
    have := Nat.and_pow_two_sub_one_of_lt_two_pow h'
    simpa using this
  have hb1 : b1 &&& 0xFF = b1 := by
    have h' : b1 < 2 ^ 8 := by omega
    have := Nat.and_pow_two_sub_one_of_lt_two_pow h'
    simpa using this
  have hb1f0 : b1 &&& 0xF0 ≤ b1 := Nat.and_le_left
  unfold is_private_ipv4
  rw [or_eq_one (or_le_one (or_le_one (b2n_le_one _) (b2n_le_one _)) (b2n_le_one _))
      (b2n_le_one _),
    or_eq_one (or_le_one (b2n_le_one _) (b2n_le_one _)) (b2n_le_one _),
    or_eq_one (b2n_le_one _) (b2n_le_one _)]
  simp only [b2n_eq_one, beq_iff_eq, e1, e2, e3, hb0, hb1]
  constructor
  · rintro (((ha | hb) | hc) | hd)
    · exact Or.inl ha
    · have hsplit : b0 = 0xAC ∧ b1 &&& 0xF0 = 0x10 := by
        constructor <;> omega
      exact Or.inr (Or.inl ⟨hsplit.1, (byte_and_f0 h1).mp hsplit.2⟩)
    · exact Or.inr (Or.inr (Or.inl ⟨by omega, by omega⟩))
    · exact Or.inr (Or.inr (Or.inr ⟨by omega, by omega⟩))
  · rintro (ha | ⟨hb, hr⟩ | ⟨hc, hc'⟩ | ⟨hd, hd'⟩)
    · exact Or.inl (Or.inl (Or.inl ha))
    · have : b1 &&& 0xF0 = 0x10 := (byte_and_f0 h1).mpr hr
      exact Or.inl (Or.inl (Or.inr (by omega)))
    · exact Or.inl (Or.inr (by omega))
    · exact Or.inr (by omega)

theorem bl_ipv4_hit_le_one (T : Tables) (p : List Nat) (proto : Nat) :
    bl_ipv4_hit T p proto ≤ 1 := by
  unfold bl_ipv4_hit
  calc _ ≤ (b2n (T.ipv4_drop ((ldN p 26 4).getD 0)).isSome |||
        is_private_ipv4 ((ldN p 26 4).getD 0)) &&& b2n (proto == 0x0008) :=
      Nat.and_le_left
  _ ≤ b2n (T.ipv4_drop ((ldN p 26 4).getD 0)).isSome |||
        is_private_ipv4 ((ldN p 26 4).getD 0) := Nat.and_le_left
  _ ≤ 1 := or_le_one (b2n_le_one _) (is_private_le_one _)

theorem bl_ipv6_hit_le_one (T : Tables) (p : List Nat) (proto : Nat) :
    bl_ipv6_hit T p proto ≤ 1 := by
  unfold bl_ipv6_hit
  calc _ ≤ _ := Nat.and_le_left
  _ ≤ _ := Nat.and_le_left
  _ ≤ 1 := or_le_one (or_le_one (b2n_le_one _) (b2n_le_one _))
      (Nat.le_trans Nat.and_le_left (b2n_le_one _))

theorem b2n_true : b2n true = 1 := rfl

theorem b2n_false : b2n false = 0 := rfl

theorem and_eq_one {x y : Nat} (hx : x ≤ 1) (hy : y ≤ 1) :
    (x &&& y = 1) ↔ (x = 1 ∧ y = 1) := by
  rcases le_one_cases hx with h | h <;> rcases le_one_cases hy with h' | h' <;>
    subst h <;> subst h' <;> simp

/-- Characterisation of the IPv4 blacklist hit bit. -/
theorem bl_ipv4_hit_eq_one (T : Tables) (p : List Nat) (hw : Wf p) (proto : Nat) :
    (bl_ipv4_hit T p proto = 1) ↔
      (proto = 0x0008 ∧ ∃ b0 b1 b2 b3, bytesAt p 26 4 = some [b0, b1, b2, b3] ∧
        ((T.ipv4_drop (leVal [b0, b1, b2, b3])).isSome = true ∨ b0 = 10 ∨
          (b0 = 172 ∧ 16 ≤ b1 ∧ b1 ≤ 31) ∨ (b0 = 192 ∧ b1 = 168) ∨
          (b0 = 169 ∧ b1 = 254))) := by
  simp only [bl_ipv4_hit]
  by_cases hq4 : proto = 0x0008
  · subst hq4
    simp only [beq_self_eq_true, b2n_true, neg32_one]
    cases hb : bytesAt p 26 4 with
    | none =>
      have herr : ldRes p 26 4 = U32 - 14 := by unfold ldRes; rw [hb]; rfl
      rw [herr, and_allones32 (by norm_num [U32]),
        show ((U32 - 14 : Nat) == 0) = false by decide, b2n_false, Nat.and_zero]
      simp [hb]
    | some bs =>
      have herr : ldRes p 26 4 = 0 := by unfold ldRes; rw [hb]; rfl
      obtain ⟨hlen, hmem⟩ := bytesAt_eq_some hb
      obtain ⟨b0, b1, b2, b3, rfl⟩ := list_len4 hlen
      have h0 : b0 < 256 := hw _ (hmem _ (by simp))
      have h1 : b1 < 256 := hw _ (hmem _ (by simp))
      have hip : (ldN p 26 4).getD 0 = leVal [b0, b1, b2, b3] := by
        unfold ldN; rw [hb]; rfl
      have hble : b2n (T.ipv4_drop (leVal [b0, b1, b2, b3])).isSome |||
          is_private_ipv4 (leVal [b0, b1, b2, b3]) ≤ 1 :=
        or_le_one (b2n_le_one _) (is_private_le_one _)
      rw [herr, Nat.zero_and, show b2n ((0 : Nat) == 0) = 1 from rfl, hip,
        and_one_of_le_one hble, and_one_of_le_one hble,
        or_eq_one (b2n_le_one _) (is_private_le_one _)]
      constructor
      · rintro (h | h)
        · exact ⟨by simp, b0, b1, b2, b3, rfl, Or.inl (b2n_eq_one.mp h)⟩
        · exact ⟨by simp, b0, b1, b2, b3, rfl, Or.inr ((is_private_ipv4_spec h0 h1).mp h)⟩
      · rintro ⟨-, c0, c1, c2, c3, hb', hcond⟩
        simp only [Option.some.injEq, List.cons.injEq, and_true] at hb'
        obtain ⟨rfl, rfl, rfl, rfl⟩ := hb'
        rcases hcond with h | h
        · exact Or.inl (b2n_eq_one.mpr h)
        · exact Or.inr ((is_private_ipv4_spec h0 h1).mpr h)
  · rw [show (proto == 0x0008) = false by simp [hq4], b2n_false, Nat.and_zero,
      Nat.zero_and]
    simp [hq4]

/-- Characterisation of the IPv6 blacklist hit bit. -/
theorem bl_ipv6_hit_eq_one (T : Tables) (p : List Nat) (proto : Nat) :
    (bl_ipv6_hit T p proto = 1) ↔
      (proto = 0xDD86 ∧ (bytesAt p 22 16).isSome = true ∧
        ((T.ipv6_drop (ld16B p 22)).isSome = true ∨
          (ld16B p 22).a % 256 = 252 ∨ (ld16B p 22).a % 256 = 253 ∨
          ((ld16B p 22).a % 256 = 254 ∧ 128 ≤ (ld16B p 22).a / 256 % 256 ∧
            (ld16B p 22).a / 256 % 256 ≤ 191))) := by
  simp only [bl_ipv6_hit]
  by_cases hq6 : proto = 0xDD86
  · subst hq6
    simp only [beq_self_eq_true, b2n_true, neg32_one]
    by_cases hsome : (bytesAt p 22 16).isSome = true
    · have herr : ldRes p 22 16 = 0 := by unfold ldRes; rw [if_pos hsome]
      have hmod : (ld16B p 22).a % 256 < 256 := Nat.mod_lt _ (by norm_num)
      have hmod2 : (ld16B p 22).a / 256 % 256 < 256 := Nat.mod_lt _ (by norm_num)
      have hllnk : b2n ((ld16B p 22).a % 256 == 0xFE) &&&
          b2n (((ld16B p 22).a / 256 % 256) &&& 0xC0 == 0x80) ≤ 1 :=
        Nat.le_trans Nat.and_le_left (b2n_le_one _)
      have hble : b2n (T.ipv6_drop (ld16B p 22)).isSome |||
          b2n (((ld16B p 22).a % 256) &&& 0xFE == 0xFC) |||
          (b2n ((ld16B p 22).a % 256 == 0xFE) &&&
            b2n (((ld16B p 22).a / 256 % 256) &&& 0xC0 == 0x80)) ≤ 1 :=
        or_le_one (or_le_one (b2n_le_one _) (b2n_le_one _)) hllnk
      rw [herr, Nat.zero_and, show b2n ((0 : Nat) == 0) = 1 from rfl,
        and_one_of_le_one hble, and_one_of_le_one hble,
        or_eq_one (or_le_one (b2n_le_one _) (b2n_le_one _)) hllnk,
        or_eq_one (b2n_le_one _) (b2n_le_one _),
        and_eq_one (b2n_le_one _) (b2n_le_one _),
        b2n_eq_one, b2n_eq_one, b2n_eq_one, b2n_eq_one,
        beq_iff_eq, beq_iff_eq, beq_iff_eq,
        byte_and_fe hmod, byte_and_c0 hmod2]
      constructor
      · rintro ((h | h) | ⟨h1, h2⟩)
        · exact ⟨trivial, hsome, Or.inl h⟩
        · rcases h with h | h
          · exact ⟨trivial, hsome, Or.inr (Or.inl h)⟩
          · exact ⟨trivial, hsome, Or.inr (Or.inr (Or.inl h))⟩
        · exact ⟨trivial, hsome, Or.inr (Or.inr (Or.inr ⟨h1, h2⟩))⟩
      · rintro ⟨-, -, h | h | h | ⟨h1, h2⟩⟩
        · exact Or.inl (Or.inl h)
        · exact Or.inl (Or.inr (Or.inl h))
        · exact Or.inl (Or.inr (Or.inr h))
        · exact Or.inr ⟨h1, h2⟩
    · have herr : ldRes p 22 16 = U32 - 14 := by unfold ldRes; rw [if_neg hsome]
      rw [herr, and_allones32 (by norm_num [U32]),
        show ((U32 - 14 : Nat) == 0) = false by decide, b2n_false, Nat.and_zero]
      simp [hsome]
  · rw [show (proto == 0xDD86) = false by simp [hq6], b2n_false, Nat.and_zero,
      Nat.zero_and]
    simp [hq6]

/-- C3: for a packet reaching the blacklist gate, the verdict is DROP exactly
when the IPv4 source is in `ipv4_drop` or in 10/8, 172.16/12, 192.168/16 or
169.254/16, or the IPv6 source is in `ipv6_drop` or in `fc00::/7` or
`fe80::/10`; every other packet passes this gate.  (The gate runs only for
non-whitelisted packets by pipeline order; it never consults the whitelist.) -/
theorem c3_blacklist_drop (T : Tables) (p : List Nat) (hw : Wf p) :
    xdp_blacklist T p = 1 ↔ (blCondV4 T p ∨ blCondV6 T p) := by
  simp only [xdp_blacklist]
  rw [verdict_eq_one_iff (or_le_one (bl_ipv4_hit_le_one T p _) (bl_ipv6_hit_le_one T p _)),
    or_eq_one (bl_ipv4_hit_le_one T p _) (bl_ipv6_hit_le_one T p _),
    bl_ipv4_hit_eq_one T p hw _, bl_ipv6_hit_eq_one T p _]
  unfold blCondV4 blCondV6
  exact Iff.rfl

/-- Freshly initialised tables: empty hash maps, zeroed array slots and
zero-filled pre-allocated flow tables. -/
def t0 : Tables where
  whitelist := fun _ => none
  panicFlag := 0
  globalBypass := 0
  aclPorts := 0
  ipv4_drop := fun _ => none
  ipv6_drop := fun _ => none
  flow_table_v4 := fun _ => ⟨0, 0, 0, 0, 0, 0⟩
  flow_table_v6 := fun _ => ⟨In6.zero, In6.zero, 0, 0, 0, 0⟩
  tcp_flow := fun _ => none
  udp_flow := fun _ => none
  tcp6_flow := fun _ => none
  udp6_flow := fun _ => none
  tcp_rate := fun _ => none
  udp_rl := fun _ => none
  cfg := ⟨0, 0⟩
  statFast := 0
  statSlow := 0

/-- Concrete TCP packet from the private source 10.0.0.1 to 8.8.4.4:80. -/
def c3pkt : List Nat :=
  [0, 0, 0, 0, 0, 0, 0, 0, 0, 0, 0, 0,
   0x08, 0x00,
   0x45, 0, 0, 0, 0, 0, 0, 0, 0, 6, 0, 0,
   10, 0, 0, 1,
   8, 8, 4, 4,
   0xC0, 0x00, 0x00, 0x50, 0, 0, 0, 0, 0, 0, 0, 0, 0, 0x02, 0, 0]

/-- Witness for C3: a TCP packet from 10.0.0.1 is dropped by the blacklist
gate with all tables empty. -/
theorem c3_blacklist_drop_witness :
    Wf c3pkt ∧
      (xdp_blacklist t0 c3pkt = 1 ↔ (blCondV4 t0 c3pkt ∨ blCondV6 t0 c3pkt)) ∧
      xdp_blacklist t0 c3pkt = 1 := by
  refine ⟨by decide, c3_blacklist_drop t0 c3pkt (by decide), by decide⟩

/-! ## Parsers and deep-inspection (suricata) gate (src/src/xdp.c:519-605) -/

/-- `parse_ipv4`: build the IPv4 5-tuple from the wire, returning the key and
the accumulated load-error word (each `LD` or-s its return value into `err`). -/
def parse_ipv4 (p : List Nat) : FlowKey × Nat :=
  let vhl := (ldN p 14 1).getD 0
  let ihl := (vhl &&& 0x0F) <<< 2
  let err := ldRes p 14 1 ||| ldRes p 23 1 ||| ldRes p 26 4 ||| ldRes p 30 4 |||
    ldRes p (14 + ihl) 2 ||| ldRes p (16 + ihl) 2
  (⟨(ldN p 26 4).getD 0, (ldN p 30 4).getD 0, (ldN p (14 + ihl) 2).getD 0,
    (ldN p (16 + ihl) 2).getD 0, (ldN p 23 1).getD 0⟩, err)

/-- `parse_ipv6`: build the IPv6 `bypass_v6` from the wire (`dir = 0`),
returning the record and the accumulated load-error word. -/
def parse_ipv6 (p : List Nat) : BypassV6 × Nat :=
  let err := ldRes p 20 1 ||| ldRes p 22 16 ||| ldRes p 38 16 |||
    ldRes p 54 2 ||| ldRes p 56 2
  (⟨ld16B p 22, ld16B p 38, (ldN p 54 2).getD 0, (ldN p 56 2).getD 0,
    (ldN p 20 1).getD 0, 0⟩, err)

/-- `idx_v4`: hash of an IPv4 5-tuple into the direct-mapped bypass cache. -/
def idx_v4 (k : FlowKey) : Nat :=
  (((k.saddr ^^^ k.daddr) ^^^ ((k.sport <<< 16) ||| k.dport)) ^^^ k.proto) &&& 65535

/-- `match_bypass_ipv4` (marked DEAD_CODE in the source): a non-null slot whose
stored 5-tuple equals the packet's 5-tuple field by field. -/
def match_bypass_ipv4 (v : Option BypassV4) (k : FlowKey) : Bool :=
  match v with
  | none => false
  | some b =>
    b.saddr == k.saddr && b.daddr == k.daddr && b.sport == k.sport &&
      b.dport == k.dport && b.proto == k.proto

/-- `bl_ipv4_suricata`: parse the 5-tuple and look it up in `flow_table_v4`.
The map is a per-CPU *array*; the 32-bit index the kernel reads from the key
pointer is the first field of `struct flow_key`, i.e. `saddr`.  The drop bit is
`(is_v4 & ok) & (hit ^ 1)` — set on a *miss*. -/
def bl_ipv4_suricata (T : Tables) (p : List Nat) (is_v4 : Nat) : Nat :=
  let pk := parse_ipv4 p
  let ok := b2n (pk.2 == 0)
  let hit := b2n (array_lookup_v4 T.flow_table_v4 pk.1.saddr).isSome
  (is_v4 &&& ok) &&& (hit ^^^ 1)

/-- `bl_ipv6_suricata`: same with the first 32-bit word of the IPv6 source as
the array index. -/
def bl_ipv6_suricata (T : Tables) (p : List Nat) (is_v6 : Nat) : Nat :=
  let pk := parse_ipv6 p
  let ok := b2n (pk.2 == 0)
  let hit := b2n (array_lookup_v6 T.flow_table_v6 pk.1.saddr.a).isSome
  (is_v6 &&& ok) &&& (hit ^^^ 1)

/-- `xdp_suricata_gate` verdict: `global_bypass = 1` forces PASS; otherwise
drop when either family's suricata bit is set. -/
def xdp_suricata_gate (T : Tables) (p : List Nat) : Nat :=
  let skip := b2n (T.globalBypass == 1)
  let proto := (ldN p 12 2).getD 0
  let v4 := b2n ((proto ^^^ 0x0008) == 0)
  let v6 := b2n ((proto ^^^ 0xDD86) == 0)
  let drop := (0 ||| bl_ipv4_suricata T p v4) ||| bl_ipv6_suricata T p v6
  let res := 2 ^^^ (3 &&& neg32 drop)
  res ^^^ ((res ^^^ 2) &&& neg32 skip)

/-- The bypass-cache slot for the packet's IPv4 flow stores a 5-tuple exactly
matching the packet's 5-tuple (the claim's drop condition, built from the
source's `idx_v4` and the dead `match_bypass_ipv4`). -/
def slotMatchesV4 (T : Tables) (k : FlowKey) : Bool :=
  match_bypass_ipv4 (some (T.flow_table_v4 (idx_v4 k))) k

theorem bl_ipv4_suricata_le_one (T : Tables) (p : List Nat) (v : Nat) :
    bl_ipv4_suricata T p v ≤ 1 := by
  unfold bl_ipv4_suricata
  calc _ ≤ _ := Nat.and_le_right
  _ ≤ 1 := by
    rcases le_one_cases (b2n_le_one
      (array_lookup_v4 T.flow_table_v4 (parse_ipv4 p).1.saddr).isSome) with h | h <;>
        rw [h] <;> decide

theorem bl_ipv6_suricata_le_one (T : Tables) (p : List Nat) (v : Nat) :
    bl_ipv6_suricata T p v ≤ 1 := by
  unfold bl_ipv6_suricata
  calc _ ≤ _ := Nat.and_le_right
  _ ≤ 1 := by
    rcases le_one_cases (b2n_le_one
      (array_lookup_v6 T.flow_table_v6 (parse_ipv6 p).1.saddr.a).isSome) with h | h <;>
        rw [h] <;> decide

theorem skip_forces_pass {d : Nat} (hd : d ≤ 1) :
    (2 ^^^ (3 &&& neg32 d)) ^^^ (((2 ^^^ (3 &&& neg32 d)) ^^^ 2) &&& neg32 1) = 2 := by
  rcases le_one_cases hd with h | h <;> subst h <;> decide

/-- C2 (amended): the gate's actual drop condition.  A TCP/UDP packet is
dropped exactly when `global_bypass ≠ 1`, the packet parses cleanly, and the
array lookup indexed by the first 32 bits of the 5-tuple key (the source
address) *misses*, i.e. that index is `≥ FLOW_TAB_SZ = 65536`.  The stored
slot's 5-tuple is never compared — `match_bypass_ipv4/6` are dead code. -/
theorem c2_suricata_amended (T : Tables) (p : List Nat) :
    xdp_suricata_gate T p = 1 ↔
      (T.globalBypass ≠ 1 ∧
        (((ldN p 12 2).getD 0 = 0x0008 ∧ (parse_ipv4 p).2 = 0 ∧
            65536 ≤ (parse_ipv4 p).1.saddr) ∨
          ((ldN p 12 2).getD 0 = 0xDD86 ∧ (parse_ipv6 p).2 = 0 ∧
            65536 ≤ (parse_ipv6 p).1.saddr.a))) := by
  simp only [xdp_suricata_gate]
  set proto := (ldN p 12 2).getD 0 with hproto
  have h4le := bl_ipv4_suricata_le_one T p (b2n ((proto ^^^ 0x0008) == 0))
  have h6le := bl_ipv6_suricata_le_one T p (b2n ((proto ^^^ 0xDD86) == 0))
  have hv4iff : (bl_ipv4_suricata T p (b2n ((proto ^^^ 0x0008) == 0)) = 1) ↔
      (proto = 0x0008 ∧ (parse_ipv4 p).2 = 0 ∧ 65536 ≤ (parse_ipv4 p).1.saddr) := by
    simp only [bl_ipv4_suricata, array_lookup_v4]
    by_cases hp : proto = 0x0008
    · rw [hp]
      rw [show (((0x0008 : Nat) ^^^ 0x0008) == 0) = true by decide, b2n_true]
      by_cases hok : (parse_ipv4 p).2 = 0
      · rw [show ((parse_ipv4 p).2 == 0) = true by simp [hok], b2n_true]
        by_cases hidx : (parse_ipv4 p).1.saddr < 65536
        · rw [if_pos hidx]
          simp only [Option.isSome_some, b2n_true]
          constructor
          · intro h; simp at h
          · rintro ⟨-, -, hge⟩; omega
        · rw [if_neg hidx]
          simp only [Option.isSome_none, b2n_false]
          constructor
          · intro _; exact ⟨by trivial, hok, Nat.le_of_not_lt hidx⟩
          · intro _; decide
      · rw [show ((parse_ipv4 p).2 == 0) = false by simp [hok], b2n_false,
          Nat.and_zero, Nat.zero_and]
        simp [hok]
    · rw [show ((proto ^^^ 0x0008) == 0) = false by
          simp [beq_eq_false_iff_ne, Nat.xor_eq_zero, hp],
        b2n_false, Nat.zero_and]
      simp [hp]
  have hv6iff : (bl_ipv6_suricata T p (b2n ((proto ^^^ 0xDD86) == 0)) = 1) ↔
      (proto = 0xDD86 ∧ (parse_ipv6 p).2 = 0 ∧ 65536 ≤ (parse_ipv6 p).1.saddr.a) := by
    simp only [bl_ipv6_suricata, array_lookup_v6]
    by_cases hp : proto = 0xDD86
    · rw [hp]
      rw [show (((0xDD86 : Nat) ^^^ 0xDD86) == 0) = true by decide, b2n_true]
      by_cases hok : (parse_ipv6 p).2 = 0
      · rw [show ((parse_ipv6 p).2 == 0) = true by simp [hok], b2n_true]
        by_cases hidx : (parse_ipv6 p).1.saddr.a < 65536
        · rw [if_pos hidx]
          simp only [Option.isSome_some, b2n_true]
          constructor
          · intro h; simp at h
          · rintro ⟨-, -, hge⟩; omega
        · rw [if_neg hidx]
          simp only [Option.isSome_none, b2n_false]
          constructor
          · intro _; exact ⟨by trivial, hok, Nat.le_of_not_lt hidx⟩
          · intro _; decide
      · rw [show ((parse_ipv6 p).2 == 0) = false by simp [hok], b2n_false,
          Nat.and_zero, Nat.zero_and]
        simp [hok]
    · rw [show ((proto ^^^ 0xDD86) == 0) = false by
          simp [beq_eq_false_iff_ne, Nat.xor_eq_zero, hp],
        b2n_false, Nat.zero_and]
      simp [hp]
  rw [Nat.zero_or]
  by_cases hskip : T.globalBypass = 1
  · rw [show (T.globalBypass == 1) = true by simp [hskip], b2n_true,
      skip_forces_pass (or_le_one h4le h6le)]
    simp [hskip]
  · rw [show (T.globalBypass == 1) = false by simp [hskip], b2n_false, neg32_zero,
      Nat.and_zero, Nat.xor_zero, verdict_eq_one_iff (or_le_one h4le h6le),
      or_eq_one h4le h6le, hv4iff, hv6iff]
    exact ⟨fun h => ⟨hskip, h⟩, fun h => h.2⟩

/-- Concrete TCP packet 8.8.8.8:49320 → 1.2.3.4:80 (parses cleanly). -/
def c2pkt : List Nat :=
  [0, 0, 0, 0, 0, 0, 0, 0, 0, 0, 0, 0,
   0x08, 0x00,
   0x45, 0, 0, 0, 0, 0, 0, 0, 0, 6, 0, 0,
   8, 8, 8, 8,
   1, 2, 3, 4,
   0xC0, 0xA8, 0x00, 0x50, 0, 0]

/-- C2 counterexample: with an all-zero bypass cache (so the slot for this
flow does *not* match the packet's 5-tuple) and `global_bypass = 0`, the
cleanly-parsed TCP packet is nevertheless DROPPED by the suricata gate —
refuting "dropped exactly when the slot's stored 5-tuple matches" and "when
the slot does not match, the packet is not dropped by this gate". -/
theorem c2_suricata_counterexample :
    xdp_suricata_gate t0 c2pkt = 1 ∧
    slotMatchesV4 t0 (parse_ipv4 c2pkt).1 = false ∧
    t0.globalBypass ≠ 1 ∧
    (parse_ipv4 c2pkt).1.proto = 6 ∧ (parse_ipv4 c2pkt).2 = 0 := by
  refine ⟨by decide, by decide, by decide, by decide, by decide⟩

/-! ## C4: parser errors in the whitelist gate -/

/-- C4 counterexample: the empty (truncated) frame is a parser error
(`wlErr ≠ 0`), is not whitelisted, and the whitelist gate returns
`XDP_DROP = 1` — it neither continues to the next stage nor passes, refuting
"a parser error for a non-whitelisted source never yields DROP". -/
theorem c4_wl_err_counterexample :
    wlErr ([] : List Nat) ≠ 0 ∧ wlHit (fun _ => none) [] = false ∧
    xdp_wl_pass (fun _ => none) [] = some 1 := by
  refine ⟨by decide, by decide, by decide⟩

theorem neg32_allones : neg32 (U32 - 1) = 1 := by norm_num [neg32, U32]

/-- The IPv6 source-load term of `err` is dead: `err |= load & -v6` masks
with `-0xFFFFFFFF = 1` when the frame is IPv6 (and with 0 otherwise), and
the load result is 0 or `(u32)-EFAULT = 0xFFFFFFF2` — both even — so the
term is always 0 and `err` is exactly the EtherType-load result. -/
theorem wlErr_eq_eth (p : List Nat) : wlErr p = ldRes p 12 2 := by
  unfold wlErr
  rcases eq32_cases ((ldN p 12 2).getD 0) 0xDD86 with h | h
  · rw [show wlV6 p = 0 from h, neg32_zero, Nat.and_zero, Nat.or_zero]
  · rw [show wlV6 p = U32 - 1 from h, neg32_allones, Nat.and_one_is_mod]
    have hz : ldRes p 22 16 % 2 = 0 := by
      unfold ldRes
      split
      · rfl
      · norm_num [U32]
    rw [hz, Nat.or_zero]

/-- C4 (amended): the only tracked parser error in the whitelist gate is the
2-byte EtherType load — the accumulated `err` equals that load's result
alone, since the IPv6 source-load term is masked to 0 — and when it is
nonzero on a non-whitelisted packet the gate returns DROP; it fails closed,
it does not continue. -/
theorem c4_wl_err_drops (wl : WlKey → Option Nat) (p : List Nat)
    (he : wlErr p ≠ 0) (hh : wlHit wl p = false) :
    wlErr p = ldRes p 12 2 ∧ xdp_wl_pass wl p = some 1 := by
  refine ⟨wlErr_eq_eth p, ?_⟩
  have hd0 : (b2n (!(wlHit wl p)) &&& (wlIcmp4 p ||| wlIcmp6 p)) &&& wlEcho p ≤ 1 := by
    calc _ ≤ _ := Nat.and_le_left
    _ ≤ _ := Nat.and_le_left
    _ ≤ 1 := b2n_le_one _
  have hdrop : wlDrop wl p = 1 := by
    unfold wlDrop
    rw [show (wlErr p != 0) = true by rw [bne_iff_ne]; exact he, b2n_true]
    rcases le_one_cases hd0 with h | h <;> rw [h] <;> decide
  simp only [xdp_wl_pass]
  rw [hh, hdrop]
  decide

/-- Witness for C4's amended theorem at the empty frame. -/
theorem c4_wl_err_drops_witness :
    wlErr ([] : List Nat) ≠ 0 ∧ wlHit (fun _ => some 1) [] = false ∧
    (wlErr ([] : List Nat) = ldRes [] 12 2 ∧
      xdp_wl_pass (fun _ => some 1) [] = some 1) := by
  refine ⟨by decide, by decide,
    c4_wl_err_drops (fun _ => some 1) [] (by decide) (by decide)⟩

/-! ## Stateful stage `xdp_state` (src/src/xdp.c:684-864) -/

/-- `struct tcp_ctx`. -/
structure TcpCtx where
  is_ipv4 : Nat
  is_ipv6 : Nat
  saddr : Nat
  saddr6 : In6
  syn_only : Nat
deriving DecidableEq

/-- `parse_packet` = `detect_ip_proto` + `load_src_addr` + `load_tcp_flags`.
`t->syn_only = syn & (~ack)` stored in a `__u8` is `syn &&& (255 ^^^ ack)`
(for `syn ≤ 1`).  Note the source masks `saddr6` with `-t->is_ipv6`, the
two's-complement negation of the eq32 mask. -/
def parse_packet (p : List Nat) : TcpCtx :=
  let eth := (ldN p 12 2).getD 0
  let is4 := eq32 eth 0x0008
  let is6 := eq32 eth 0xDD86
  let saddr := ((ldN p 26 4).getD 0) &&& is4
  let saddr6 := mask_in6 (ld16B p 22) (neg32 is6)
  let vhl := (ldN p 14 1).getD 0
  let ihl := (vhl &&& 0x0F) <<< 2
  let toff := 14 + (ihl &&& is4) + (40 &&& is6)
  let flags := (ldN p (toff + 13) 1).getD 0
  let syn := (flags >>> 1) &&& 1
  let ack := (flags >>> 4) &&& 1
  ⟨is4, is6, saddr, saddr6, syn &&& (255 ^^^ ack)⟩

/-- `make_key`: `is_v6` is the `__u8` truncation of the 32-bit flag; the low
address word is or-ed with the IPv4 source. -/
def make_key (t : TcpCtx) : IpKey :=
  ⟨t.is_ipv6 % 256, ⟨t.saddr6.a ||| t.saddr, t.saddr6.b, t.saddr6.c, t.saddr6.d⟩⟩

/-- `load_rl`: insert-if-absent (`BPF_NOEXIST`) of `{now, 0}`, then lookup and
`bpf_probe_read_kernel` of the current value (the insert is assumed to
succeed; the LRU map evicts rather than fills up). -/
def load_rl (m : IpKey → Option RateLimit) (k : IpKey) (now : Nat) :
    RateLimit × (IpKey → Option RateLimit) :=
  let m1 := if (m k).isSome then m else mupd m k ⟨now, 0⟩
  ((m1 k).getD ⟨now, 0⟩, m1)

/-- `store_rl`: branch-free window roll-over, increment by `add`, threshold
check `(sc > 20) | (sc > 100)`, write back. -/
def store_rl (m : IpKey → Option RateLimit) (k : IpKey) (add : Nat)
    (rl : RateLimit) (now : Nat) : Bool × (IpKey → Option RateLimit) :=
  let elapsed := sub64 now rl.window_start
  let in_window := b2n (decide (elapsed < 1000000000))
  let m64 := neg64 in_window
  let m32 := neg32 in_window
  let ws := (rl.window_start &&& m64) ||| (now &&& not64 m64)
  let sc := ((rl.syn_count &&& m32) + add) % U32
  let ex := decide (sc > 20) || decide (sc > 100)
  (ex, mupd m k ⟨ws, sc⟩)

/-- `check_rate_limit`: `store_rl(&k, check, rl) & check` with `check` the
SYN-only bit; two `bpf_ktime_get_ns` calls, modelled as `tL` (load) and `tS`
(store). -/
def check_rate_limit (m : IpKey → Option RateLimit) (t : TcpCtx)
    (tL tS : Nat) : Nat × (IpKey → Option RateLimit) :=
  let check := t.syn_only
  let k := make_key t
  let r1 := load_rl m k tL
  let r2 := store_rl r1.2 k check r1.1 tS
  (b2n r2.1 &&& check, r2.2)

/-- `tcp_state_drop` — note: no protocol check anywhere; the flags byte is
read at the TCP offset for every packet. -/
def tcp_state_drop (T : Tables) (p : List Nat) (tL tS : Nat) : Nat × Tables :=
  let t := parse_packet p
  let r := check_rate_limit T.tcp_rate t tL tS
  (r.1 &&& 1, { T with tcp_rate := r.2 })

/-- `struct pkt`. -/
structure Pkt where
  v4 : Nat
  v6 : Nat
  sip : Nat
  sip6 : In6
  udp : Nat
deriving DecidableEq

/-- `parse` (the `struct pkt` parser of the UDP side; `clr_in6` masks the
words with `p->v6` directly). -/
def parse_pkt (p : List Nat) : Pkt :=
  let eth := (ldN p 12 2).getD 0
  let v4 := eq32 eth 0x0008
  let v6 := eq32 eth 0xDD86
  let pr4 := (ldN p 23 1).getD 0
  let pr6 := (ldN p 20 1).getD 0
  let l4 := (pr4 &&& v4) ||| (pr6 &&& v6)
  let udp := eq32 l4 17
  let sip := ((ldN p 26 4).getD 0) &&& v4
  let sip6 := mask_in6 (ld16B p 22) v6
  ⟨v4, v6, sip, sip6, udp⟩

/-- `rl_cfg_get`: the single-slot array lookup always succeeds and
`bpf_probe_read_kernel` returns 0, so `ok` is the all-ones mask; zero fields
are then replaced by the defaults `ns = 1000000`, `burst = 100`. -/
def rl_cfg_get (stored : RlCfg) : RlCfg :=
  let ns0 := stored.ns &&& (U64 - 1)
  let br0 := stored.br &&& (U32 - 1)
  let zns := neg64 (b2n (ns0 == 0))
  let zbr := neg32 (b2n (br0 == 0))
  ⟨(ns0 &&& not64 zns) ||| (1000000 &&& zns), (br0 &&& not32 zbr) ||| (100 &&& zbr)⟩

/-- `meta_ensure`: insert-if-absent of `{now, br}`, then read back. -/
def meta_ensure (M : UdpKey → Option UdpMeta) (k : UdpKey) (br now : Nat) :
    UdpMeta × (UdpKey → Option UdpMeta) :=
  let M1 := if (M k).isSome then M else mupd M k ⟨now, br⟩
  ((M1 k).getD ⟨now, br⟩, M1)

/-- `token_bucket_update` (src/src/xdp.c:824): TTL reset, refill `idle/ns`
clamped to `burst`, decrement-if-nonzero, write back `{now, t_after}`. -/
def token_bucket_update (M : UdpKey → Option UdpMeta) (k : UdpKey)
    (c : RlCfg) (now : Nat) : Nat × (UdpKey → Option UdpMeta) :=
  let r := meta_ensure M k c.br now
  let m := r.1
  let idle := sub64 now m.last_seen
  let reset := neg64 (b2n (decide (5000000000 ≤ idle)))
  let t0 := ((c.br &&& reset) ||| (m.tokens &&& not64 reset)) % U32
  let add := idle / c.ns
  let sum := (t0 + add) % U64
  let over := neg32 (b2n (decide (c.br < sum)))
  let tlim := (c.br &&& over) ||| ((sum % U32) &&& not32 over)
  let has := b2n (tlim != 0)
  let drop := not32 has &&& 1
  let t_after := (tlim + (U32 - has)) % U32
  (drop, mupd r.2 k ⟨now, t_after⟩)

/-- `udp_state_drop`: the token bucket runs for *every* packet; only the
returned drop bit is masked with `p.udp != 0`. -/
def udp_state_drop (T : Tables) (p : List Nat) (tU : Nat) : Nat × Tables :=
  let pk := parse_pkt p
  let cfg := rl_cfg_get T.cfg
  let k : UdpKey := ⟨b2n (pk.v6 != 0),
    ⟨(pk.sip &&& pk.v4) ||| (pk.sip6.a &&& pk.v6), pk.sip6.b &&& pk.v6,
     pk.sip6.c &&& pk.v6, pk.sip6.d &&& pk.v6⟩⟩
  let r := token_bucket_update T.udp_rl k cfg tU
  (b2n (pk.udp != 0) &&& r.1, { T with udp_rl := r.2 })

/-- `xdp_state`: `drop = tcp_state_drop(ctx) | udp_state_drop(ctx)` (both
always run), verdict by the branch-free select.  Clock values in call order:
`tL` (load_rl), `tS` (store_rl), `tU` (udp token bucket). -/
def xdp_state (T : Tables) (p : List Nat) (tL tS tU : Nat) : Nat × Tables :=
  let r1 := tcp_state_drop T p tL tS
  let r2 := udp_state_drop r1.2 p tU
  (2 ^^^ (3 &&& neg32 (r1.1 ||| r2.1)), r2.2)

/-- Tables after the stateful stage has processed the first `n` packets of
the stream `pk` with per-packet clock streams `tL`, `tS`, `tU`. -/
def runStateN (T : Tables) (pk : Nat → List Nat) (tL tS tU : Nat → Nat) :
    Nat → Tables
  | 0 => T
  | n + 1 => (xdp_state (runStateN T pk tL tS tU n) (pk n) (tL n) (tS n) (tU n)).2

/-- Verdict of the stateful stage on packet `n` of the stream. -/
def verdictN (T : Tables) (pk : Nat → List Nat) (tL tS tU : Nat → Nat)
    (n : Nat) : Nat :=
  (xdp_state (runStateN T pk tL tS tU n) (pk n) (tL n) (tS n) (tU n)).1

theorem mupd_self {K V : Type} [DecidableEq K] (m : K → Option V) (k : K) (v : V) :
    mupd m k v k = some v := by
  simp [mupd]

theorem not32_zero : not32 0 = U32 - 1 := by
  unfold not32
  simp

theorem not32_allones : not32 (U32 - 1) = 0 := by
  unfold not32
  rw [Nat.mod_eq_of_lt (by norm_num [U32])]
  exact Nat.xor_self _

theorem not64_zero : not64 0 = U64 - 1 := by
  unfold not64
  simp

theorem not64_allones : not64 (U64 - 1) = 0 := by
  unfold not64
  rw [Nat.mod_eq_of_lt (by norm_num [U64])]
  exact Nat.xor_self _

theorem neg64_one : neg64 1 = U64 - 1 := by norm_num [neg64, U64]

theorem neg64_zero : neg64 0 = 0 := by norm_num [neg64, U64]

/-! ## C8: the token bucket keeps `tokens` in `[0, burst]` -/

/-- The clamped refill `tlim` never exceeds `burst`. -/
theorem tlim_le {br sum : Nat} (hbr : br < U32) :
    (br &&& neg32 (b2n (decide (br < sum)))) |||
      ((sum % U32) &&& not32 (neg32 (b2n (decide (br < sum))))) ≤ br := by
  by_cases h : br < sum
  · rw [show decide (br < sum) = true by simp [h], b2n_true, neg32_one, not32_allones,
      Nat.and_zero, Nat.or_zero, and_allones32 hbr]
  · rw [show decide (br < sum) = false by simp [h], b2n_false, neg32_zero, not32_zero,
      Nat.and_zero, Nat.zero_or]
    have hs : sum < U32 := lt_of_le_of_lt (Nat.le_of_not_lt h) hbr
    rw [Nat.mod_eq_of_lt hs, and_allones32 hs]
    omega

/-- The decrement-if-nonzero step never increases the value. -/
theorem sub_has_le {t : Nat} (ht : t < U32) :
    (t + (U32 - b2n (t != 0))) % U32 ≤ t := by
  by_cases h0 : t = 0
  · subst h0
    norm_num [b2n, U32]
  · rw [show (t != 0) = true by simp [h0], b2n_true]
    have h1 : t + (U32 - 1) = (t - 1) + U32 := by
      have : 1 ≤ U32 := by norm_num [U32]
      omega
    rw [h1, Nat.add_mod_right, Nat.mod_eq_of_lt (by omega)]
    omega

/-- C8: after every `token_bucket_update` the value written back to `udp_rl`
for the key has `last_seen = now` and `tokens` in `[0, burst]` (the lower
bound is inherent to `Nat`), for any prior bucket state — including a TTL
reset, an overflowing refill, or a corrupt stored token count. -/
theorem c8_token_bucket_clamped (M : UdpKey → Option UdpMeta) (k : UdpKey)
    (c : RlCfg) (now : Nat) (hbr : c.br < U32) :
    ∃ v, (token_bucket_update M k c now).2 k = some v ∧
      v.tokens ≤ c.br ∧ v.last_seen = now := by
  simp only [token_bucket_update, meta_ensure]
  refine ⟨_, mupd_self _ _ _, ?_, rfl⟩
  exact le_trans (sub_has_le (lt_of_le_of_lt (tlim_le hbr) hbr)) (tlim_le hbr)

/-- Witness for C8 at a concrete state. -/
theorem c8_token_bucket_clamped_witness :
    (100 : Nat) < U32 ∧
    ∃ v, (token_bucket_update (fun _ => none) ⟨0, In6.zero⟩ ⟨1000000, 100⟩ 5).2
        ⟨0, In6.zero⟩ = some v ∧ v.tokens ≤ 100 ∧ v.last_seen = 5 := by
  exact ⟨by norm_num [U32],
    c8_token_bucket_clamped (fun _ => none) ⟨0, In6.zero⟩ ⟨1000000, 100⟩ 5
      (by norm_num [U32])⟩

/-! ## C5: TCP SYN rate limiting -/

/-- The rate-limit key built for an IPv4-parsed context. -/
theorem make_key_v4 (s : Nat) :
    make_key ⟨U32 - 1, 0, s, In6.zero, 1⟩ = ⟨0, ⟨s, 0, 0, 0⟩⟩ := by
  simp [make_key, In6.zero]

/-- For a non-UDP packet the UDP half contributes no drop and leaves
`tcp_rate` untouched. -/
theorem udp_state_drop_nonudp {T : Tables} {p : List Nat} {tU : Nat}
    (hu : (parse_pkt p).udp = 0) :
    (udp_state_drop T p tU).1 = 0 ∧
    (udp_state_drop T p tU).2.tcp_rate = T.tcp_rate := by
  constructor
  · simp only [udp_state_drop]
    rw [show ((parse_pkt p).udp != 0) = false by simp [hu], b2n_false, Nat.zero_and]
  · rfl

/-- One SYN-only IPv4 packet against an existing window entry `{ws, c}` whose
store-time is inside the window: the counter becomes `c + 1`, the window start
is kept, and the stage verdict is DROP exactly when `c + 1 > 20`. -/
theorem xdp_state_syn_step {T : Tables} {p : List Nat} {s tL tS tU ws c : Nat}
    (hp : parse_packet p = ⟨U32 - 1, 0, s, In6.zero, 1⟩)
    (hu : (parse_pkt p).udp = 0)
    (hk : T.tcp_rate ⟨0, ⟨s, 0, 0, 0⟩⟩ = some ⟨ws, c⟩)
    (hc : c < 1000)
    (hw1 : ws ≤ tS) (hw2 : tS - ws < 1000000000) (hw3 : tS < U64) :
    (xdp_state T p tL tS tU).1 = (if 20 < c + 1 then 1 else 2) ∧
    (xdp_state T p tL tS tU).2.tcp_rate ⟨0, ⟨s, 0, 0, 0⟩⟩ = some ⟨ws, c + 1⟩ := by
  have htcp : tcp_state_drop T p tL tS =
      (b2n (decide (20 < c + 1)),
        { T with tcp_rate := mupd T.tcp_rate ⟨0, ⟨s, 0, 0, 0⟩⟩ ⟨ws, c + 1⟩ }) := by
    simp only [tcp_state_drop, check_rate_limit, load_rl, store_rl, hp, make_key_v4,
      hk, Option.isSome_some, if_true, Option.getD_some]
    rw [sub64_of_le hw1 hw3, show decide (tS - ws < 1000000000) = true by simp [hw2],
      b2n_true, neg64_one, neg32_one, not64_allones, Nat.and_zero, Nat.or_zero,
      and_allones64 (lt_of_le_of_lt hw1 hw3),
      and_allones32 (by norm_num [U32]; omega),
      Nat.mod_eq_of_lt (show c + 1 < U32 by norm_num [U32]; omega)]
    have hex : (decide (c + 1 > 20) || decide (c + 1 > 100)) = decide (20 < c + 1) := by
      by_cases h : 20 < c + 1
      · simp [h]
      · have h2 : ¬(100 < c + 1) := by omega
        simp [h, h2]
    rw [hex, and_one_of_le_one (b2n_le_one _), and_one_of_le_one (b2n_le_one _)]
  have htcp1 : (tcp_state_drop T p tL tS).1 = b2n (decide (20 < c + 1)) := by
    rw [htcp]
  have htcp2 : (tcp_state_drop T p tL tS).2.tcp_rate =
      mupd T.tcp_rate ⟨0, ⟨s, 0, 0, 0⟩⟩ ⟨ws, c + 1⟩ := by
    rw [htcp]
  have hudp := @udp_state_drop_nonudp (tcp_state_drop T p tL tS).2 p tU hu
  constructor
  · show (2 ^^^ (3 &&& neg32 ((tcp_state_drop T p tL tS).1 |||
      (udp_state_drop (tcp_state_drop T p tL tS).2 p tU).1))) = _
    rw [hudp.1, Nat.or_zero, htcp1]
    by_cases h : 20 < c + 1
    · rw [show decide (20 < c + 1) = true by simp [h], if_pos h]
      decide
    · rw [show decide (20 < c + 1) = false by simp [h], if_neg h]
      decide
  · show (udp_state_drop (tcp_state_drop T p tL tS).2 p tU).2.tcp_rate _ = _
    rw [hudp.2, htcp2]
    exact mupd_self _ _ _

/-- The first SYN-only IPv4 packet from an unknown source: the entry is
created with `window_start = tL`, the counter becomes 1 and the verdict is
PASS. -/
theorem xdp_state_syn_first {T : Tables} {p : List Nat} {s tL tS tU : Nat}
    (hp : parse_packet p = ⟨U32 - 1, 0, s, In6.zero, 1⟩)
    (hu : (parse_pkt p).udp = 0)
    (hk : T.tcp_rate ⟨0, ⟨s, 0, 0, 0⟩⟩ = none)
    (hw1 : tL ≤ tS) (hw2 : tS - tL < 1000000000) (hw3 : tS < U64) :
    (xdp_state T p tL tS tU).1 = 2 ∧
    (xdp_state T p tL tS tU).2.tcp_rate ⟨0, ⟨s, 0, 0, 0⟩⟩ = some ⟨tL, 1⟩ := by
  have htcp : tcp_state_drop T p tL tS =
      (0, { T with tcp_rate := (mupd (mupd T.tcp_rate ⟨0, ⟨s, 0, 0, 0⟩⟩ ⟨tL, 0⟩) ⟨0, ⟨s, 0, 0, 0⟩⟩ ⟨tL, 1⟩) }) := by
    simp only [tcp_state_drop, check_rate_limit, load_rl, store_rl, hp, make_key_v4,
      hk, Option.isSome_none, Bool.false_eq_true, if_false, mupd_self,
      Option.getD_some]
    rw [sub64_of_le hw1 hw3, show decide (tS - tL < 1000000000) = true by simp [hw2],
      b2n_true, neg64_one, neg32_one, not64_allones, Nat.and_zero, Nat.or_zero,
      and_allones64 (lt_of_le_of_lt hw1 hw3),
      and_allones32 (show (0 : Nat) < U32 by norm_num [U32]),
      show ((0 : Nat) + 1) % U32 = 1 by norm_num [U32],
      show (decide ((1 : Nat) > 20) || decide ((1 : Nat) > 100)) = false by decide,
      b2n_false, Nat.zero_and, Nat.zero_and]
  have htcp1 : (tcp_state_drop T p tL tS).1 = 0 := by rw [htcp]
  have htcp2 : (tcp_state_drop T p tL tS).2.tcp_rate =
      mupd (mupd T.tcp_rate ⟨0, ⟨s, 0, 0, 0⟩⟩ ⟨tL, 0⟩) ⟨0, ⟨s, 0, 0, 0⟩⟩ ⟨tL, 1⟩ := by
    rw [htcp]
  have hudp := @udp_state_drop_nonudp (tcp_state_drop T p tL tS).2 p tU hu
  constructor
  · show (2 ^^^ (3 &&& neg32 ((tcp_state_drop T p tL tS).1 |||
      (udp_state_drop (tcp_state_drop T p tL tS).2 p tU).1))) = _
    rw [hudp.1, Nat.or_zero, htcp1]
    decide
  · show (udp_state_drop (tcp_state_drop T p tL tS).2 p tU).2.tcp_rate _ = _
    rw [hudp.2, htcp2]
    exact mupd_self _ _ _

/-- C5: a single IPv4 source sends 21 TCP SYN-only segments inside one
1-second window (all store-clock readings lie within `10^9` ns of the first
load-clock reading, and the source starts with no rate-limit entry).  The
stateful stage passes the first 20 and drops the 21st: the counter after
increment exceeds `SYN_RATE_LIMIT = 20` exactly at the 21st segment. -/
theorem c5_syn_rate_limit (T : Tables) (pk : Nat → List Nat)
    (tL tS tU : Nat → Nat) (s : Nat)
    (hp : ∀ i < 21, parse_packet (pk i) = ⟨U32 - 1, 0, s, In6.zero, 1⟩)
    (hu : ∀ i < 21, (parse_pkt (pk i)).udp = 0)
    (hk : T.tcp_rate ⟨0, ⟨s, 0, 0, 0⟩⟩ = none)
    (hw : ∀ i < 21, tL 0 ≤ tS i ∧ tS i - tL 0 < 1000000000 ∧ tS i < U64) :
    ∀ i < 21, verdictN T pk tL tS tU i = if i < 20 then 2 else 1 := by
  have hinv : ∀ i, i ≤ 21 → (runStateN T pk tL tS tU i).tcp_rate ⟨0, ⟨s, 0, 0, 0⟩⟩ =
      (if i = 0 then none else some ⟨tL 0, i⟩) := by
    intro i
    induction i with
    | zero => intro _; simpa using hk
    | succ n ih =>
      intro hn21
      have hn : n < 21 := by omega
      have ihn := ih (by omega)
      obtain ⟨hwa, hwb, hwc⟩ := hw n hn
      show (xdp_state (runStateN T pk tL tS tU n) (pk n) (tL n) (tS n) (tU n)).2.tcp_rate
          _ = _
      by_cases h0 : n = 0
      · subst h0
        simp only [if_pos rfl] at ihn
        have := @xdp_state_syn_first (runStateN T pk tL tS tU 0) (pk 0) s (tL 0) (tS 0) (tU 0) (hp 0 hn) (hu 0 hn) ihn hwa hwb hwc
        simpa using this.2
      · rw [if_neg h0] at ihn
        have hcnt : n < 1000 := by omega
        have hws1 : tL 0 ≤ tS n := hwa
        have := @xdp_state_syn_step (runStateN T pk tL tS tU n) (pk n) s (tL n) (tS n) (tU n) (tL 0) n (hp n hn) (hu n hn) ihn hcnt hws1 hwb hwc
        simpa [h0] using this.2
  intro i hi
  obtain ⟨hwa, hwb, hwc⟩ := hw i hi
  unfold verdictN
  by_cases h0 : i = 0
  · subst h0
    have hz0 := hinv 0 (by omega)
    simp only [if_pos rfl] at hz0
    have := @xdp_state_syn_first (runStateN T pk tL tS tU 0) (pk 0) s (tL 0) (tS 0) (tU 0) (hp 0 hi) (hu 0 hi) hz0 hwa hwb hwc
    rw [this.1]
    norm_num
  · have hinvi := hinv i (by omega)
    rw [if_neg h0] at hinvi
    have hcnt : i < 1000 := by omega
    have := @xdp_state_syn_step (runStateN T pk tL tS tU i) (pk i) s (tL i) (tS i) (tU i) (tL 0) i (hp i hi) (hu i hi) hinvi hcnt hwa hwb hwc
    rw [this.1]
    by_cases h20 : i < 20
    · rw [if_pos h20, if_neg (by omega : ¬ 20 < i + 1)]
    · rw [if_neg h20, if_pos (by omega : 20 < i + 1)]

/-- Concrete IPv4 TCP SYN segment 1.2.3.4:4660 → 5.6.7.8:80 (flags byte
0x02 at offset 47). -/
def c5pkt : List Nat :=
  [0, 0, 0, 0, 0, 0, 0, 0, 0, 0, 0, 0,
   0x08, 0x00,
   0x45, 0, 0, 0, 0, 0, 0, 0, 0, 6, 0, 0,
   1, 2, 3, 4,
   5, 6, 7, 8,
   0x12, 0x34, 0x00, 0x50, 0, 0, 0, 0, 0, 0, 0, 0, 0, 0x02, 0, 0]

/-- Witness for C5: the same SYN segment sent 21 times at 1 ms spacing from
fresh tables — the 1st is passed, the 21st dropped. -/
theorem c5_syn_rate_limit_witness :
    verdictN t0 (fun _ => c5pkt) (fun i => 1000000 * i) (fun i => 1000000 * i)
      (fun i => 1000000 * i) 0 = 2 ∧
    verdictN t0 (fun _ => c5pkt) (fun i => 1000000 * i) (fun i => 1000000 * i)
      (fun i => 1000000 * i) 20 = 1 := by
  have h := c5_syn_rate_limit t0 (fun _ => c5pkt) (fun i => 1000000 * i)
    (fun i => 1000000 * i) (fun i => 1000000 * i) 0x04030201
    (fun i _ => by show parse_packet c5pkt = _; decide)
    (fun i _ => by show (parse_pkt c5pkt).udp = 0; decide) (by decide)
    (fun i hi => ⟨by show 1000000 * 0 ≤ 1000000 * i; omega,
      by show 1000000 * i - 1000000 * 0 < 1000000000; omega,
      by show 1000000 * i < U64; unfold U64; omega⟩)
  constructor
  · simpa using h 0 (by norm_num)
  · simpa using h 20 (by norm_num)

/-! ## C7: UDP source below the bucket rate -/

/-- Concrete IPv4 UDP datagram from 5.6.7.8 whose sixth payload byte (packet
offset 47, which is where `load_tcp_flags` reads the "TCP flags" for an IHL-5
IPv4 packet) happens to be 0x02. -/
def c7pkt : List Nat :=
  [0, 0, 0, 0, 0, 0, 0, 0, 0, 0, 0, 0,
   0x08, 0x00,
   0x45, 0, 0, 0, 0, 0, 0, 0, 0, 17, 0, 0,
   5, 6, 7, 8,
   9, 10, 11, 12,
   0x12, 0x34, 0x00, 0x35, 0x00, 0x10, 0, 0, 0, 0, 0, 0, 0, 0x02, 0, 0]

/-- C7 evaluation at the failing input: 21 identical UDP datagrams from
5.6.7.8 at one datagram per `2*ns` ns (`ns` is the default 1000000, so 2 ms
apart; all well below `burst/ns`), starting from fresh tables.  The first 20
are passed but the 21st is DROPPED: `tcp_state_drop` never checks the L4
protocol, so the datagrams' payload byte at the TCP-flags offset (0x02 =
SYN, no ACK) drives the SYN rate limiter over `SYN_RATE_LIMIT = 20`.  The
UDP token bucket itself never drops here — the drop comes from the TCP half
of the stateful stage. -/
theorem c7_udp_below_rate_dropped :
    (List.range 21).map
        (verdictN t0 (fun _ => c7pkt) (fun i => 2000000 * i) (fun i => 2000000 * i)
          (fun i => 2000000 * i)) =
      List.replicate 20 2 ++ [1] := by
  decide

/-! ## Flow fast path `xdp_flow_fastpath` (src/src/xdp.c:390-517) -/

/-- `struct flow_ctx`. -/
structure FlowCtx where
  is_ipv4 : Nat
  is_ipv6 : Nat
  l4_proto : Nat
  is_tcp : Nat
  is_udp : Nat
  hdr_len : Nat
  key_v4 : FlowKey
  key_v6 : FlowKey6
  hit_tcp_v4 : Nat
  hit_udp_v4 : Nat
  hit_tcp_v6 : Nat
  hit_udp_v6 : Nat
deriving DecidableEq

/-- `parse_l2` + `parse_l3` + `build_keys` (hit flags still zero). -/
def flowCtxOf (p : List Nat) : FlowCtx :=
  let eth := (ldN p 12 2).getD 0
  let is4 := b2n (eth == 0x0008)
  let is6 := b2n (eth == 0xDD86)
  let p4 := (ldN p 23 1).getD 0
  let p6 := (ldN p 20 1).getD 0
  let l4 := is4 * p4 + is6 * p6
  let is_tcp := b2n (l4 == 6)
  let is_udp := b2n (l4 == 17)
  let vhl := (ldN p 14 1).getD 0
  let ihl4 := (vhl &&& 0x0F) <<< 2
  let hdr := is4 * ihl4 + is6 * 40
  let k4 : FlowKey := ⟨(ldN p 26 4).getD 0, (ldN p 30 4).getD 0,
    (ldN p (14 + hdr) 2).getD 0, (ldN p (16 + hdr) 2).getD 0, l4⟩
  let k6 : FlowKey6 := ⟨ld16B p 22, ld16B p 38, (ldN p 54 2).getD 0,
    (ldN p 56 2).getD 0, l4⟩
  ⟨is4, is6, l4, is_tcp, is_udp, hdr, k4, k6, 0, 0, 0, 0⟩

/-- `fresh_ts`: entry present and not older than the idle threshold
(`exp = has & ((now - v) > idle)`, freshness is `has & (exp ^ 1)`). -/
def fresh_ts (v : Option Nat) (now idle : Nat) : Nat :=
  let has := b2n v.isSome
  let exp := has &&& b2n (decide (idle < sub64 now (v.getD 0)))
  has &&& (exp ^^^ 1)

/-- `lookup_hits` at clock `now` (`TCP_IDLE_NS = 15 s`, `UDP_IDLE_NS = 5 s`). -/
def lookup_hits (T : Tables) (f : FlowCtx) (now : Nat) : FlowCtx :=
  { f with
    hit_tcp_v4 := fresh_ts (T.tcp_flow f.key_v4) now 15000000000
    hit_udp_v4 := fresh_ts (T.udp_flow f.key_v4) now 5000000000
    hit_tcp_v6 := fresh_ts (T.tcp6_flow f.key_v6) now 15000000000
    hit_udp_v6 := fresh_ts (T.udp6_flow f.key_v6) now 5000000000 }

/-- Unary minus on `__u8`. -/
def neg8 (x : Nat) : Nat := (256 - x % 256) % 256

/-- `is_fin_rst`: FIN (bit 0) or RST (bit 2) set. -/
def is_fin_rst (f : Nat) : Nat := b2n ((f &&& 0x05) != 0)

/-- The `fin_rst` bit `cleanup_fin_rst` computes for a packet. -/
def finRstOf (p : List Nat) : Nat :=
  let f := flowCtxOf p
  let fl4 := (ldN p (14 + f.hdr_len + 13) 1).getD 0
  let fl6 := (ldN p 67 1).getD 0
  is_fin_rst (f.is_ipv4 * fl4 + f.is_ipv6 * fl6) &&& f.is_tcp

/-- `cleanup_fin_rst`: delete the (proto-masked) key from `tcp_flow` and
`tcp6_flow`; the masks turn the keys into proto-0 keys unless the packet is a
TCP FIN/RST of the matching family. -/
def cleanup_fin_rst (T : Tables) (p : List Nat) (f : FlowCtx) : Tables :=
  let fl4 := (ldN p (14 + f.hdr_len + 13) 1).getD 0
  let fl6 := (ldN p 67 1).getD 0
  let fin_rst := is_fin_rst (f.is_ipv4 * fl4 + f.is_ipv6 * fl6) &&& f.is_tcp
  let mask4 := neg8 (fin_rst &&& f.is_ipv4)
  let k4 : FlowKey := { f.key_v4 with proto := f.key_v4.proto &&& mask4 }
  let T1 := { T with tcp_flow := mdel T.tcp_flow k4 }
  let mask6 := neg8 (fin_rst &&& f.is_ipv6)
  let k6 : FlowKey6 := { f.key_v6 with proto := f.key_v6.proto &&& mask6 }
  { T1 with tcp6_flow := mdel T1.tcp6_flow k6 }

/-- `xdp_flow_fastpath`: count, parse, look up, FIN/RST cleanup, then tail
call to the stateful stage (`STATE_IDX`) on a fresh hit or to the suricata
gate (`SURICATA_IDX`) on a miss; `tc` says whether the tail call succeeds —
on failure the source falls through to the inline UDP token bucket and the
ICMP-forces-PASS return. -/
def xdp_flow_fastpath (tc : Bool) (T : Tables) (p : List Nat)
    (tF tL tS tU tUf : Nat) : Nat × Tables :=
  let T0 := { T with statFast := (T.statFast + 1) % U64 }
  let f0 := flowCtxOf p
  let icmp := eq32 f0.l4_proto 1 ||| eq32 f0.l4_proto 58
  let f := lookup_hits T0 f0 tF
  let T1 := cleanup_fin_rst T0 p f
  let hit4t := f.hit_tcp_v4 * f.is_ipv4 * f.is_tcp
  let hit4u := f.hit_udp_v4 * f.is_ipv4 * f.is_udp
  let hit6t := f.hit_tcp_v6 * f.is_ipv6 * f.is_tcp
  let hit6u := f.hit_udp_v6 * f.is_ipv6 * f.is_udp
  let hit_any := ((hit4t ||| hit4u) ||| hit6t) ||| hit6u
  if tc then
    if hit_any ≠ 0 then xdp_state T1 p tL tS tU
    else (xdp_suricata_gate T1 p, T1)
  else
    let r :=
      if f.is_udp ≠ 0 then
        let cfg := rl_cfg_get T1.cfg
        let k : UdpKey := ⟨f.is_ipv6,
          ⟨(f.key_v4.saddr &&& neg32 f.is_ipv4) ||| (f.key_v6.saddr.a &&& neg32 f.is_ipv6),
           f.key_v6.saddr.b &&& neg32 f.is_ipv6,
           f.key_v6.saddr.c &&& neg32 f.is_ipv6,
           f.key_v6.saddr.d &&& neg32 f.is_ipv6⟩⟩
        let rr := token_bucket_update T1.udp_rl k cfg tUf
        (rr.1, { T1 with udp_rl := rr.2 })
      else (0, T1)
    let res := 2 ^^^ (3 &&& neg32 r.1)
    (res ^^^ ((res ^^^ 2) &&& neg32 icmp), r.2)

theorem mdel_self {K V : Type} [DecidableEq K] (m : K → Option V) (k : K) :
    mdel m k k = none := by
  simp [mdel]

/-- Neither the stateful stage nor the suricata gate nor the fall-through
token bucket touches `tcp_flow`/`tcp6_flow`: the run's final flow tables are
those left by `cleanup_fin_rst`. -/
theorem fastpath_flow_tables (tc : Bool) (T : Tables) (p : List Nat)
    (tF tL tS tU tUf : Nat) :
    (xdp_flow_fastpath tc T p tF tL tS tU tUf).2.tcp_flow =
      (cleanup_fin_rst { T with statFast := (T.statFast + 1) % U64 } p
        (lookup_hits { T with statFast := (T.statFast + 1) % U64 } (flowCtxOf p) tF)).tcp_flow ∧
    (xdp_flow_fastpath tc T p tF tL tS tU tUf).2.tcp6_flow =
      (cleanup_fin_rst { T with statFast := (T.statFast + 1) % U64 } p
        (lookup_hits { T with statFast := (T.statFast + 1) % U64 } (flowCtxOf p) tF)).tcp6_flow := by
  simp only [xdp_flow_fastpath]
  split
  · split
    · exact ⟨rfl, rfl⟩
    · exact ⟨rfl, rfl⟩
  · split
    · exact ⟨rfl, rfl⟩
    · exact ⟨rfl, rfl⟩

theorem flowCtx_v4_not_v6 {p : List Nat} (h : (flowCtxOf p).is_ipv4 = 1) :
    (flowCtxOf p).is_ipv6 = 0 := by
  revert h
  simp only [flowCtxOf]
  intro h
  have he : ((ldN p 12 2).getD 0) = 0x0008 := by
    by_contra hne
    rw [show (((ldN p 12 2).getD 0) == 0x0008) = false by simp [hne], b2n_false] at h
    exact absurd h (by norm_num)
  rw [show (((ldN p 12 2).getD 0) == 0xDD86) = false by simp [he], b2n_false]

theorem flowCtx_v6_not_v4 {p : List Nat} (h : (flowCtxOf p).is_ipv6 = 1) :
    (flowCtxOf p).is_ipv4 = 0 := by
  revert h
  simp only [flowCtxOf]
  intro h
  have he : ((ldN p 12 2).getD 0) = 0xDD86 := by
    by_contra hne
    rw [show (((ldN p 12 2).getD 0) == 0xDD86) = false by simp [hne], b2n_false] at h
    exact absurd h (by norm_num)
  rw [show (((ldN p 12 2).getD 0) == 0x0008) = false by simp [he], b2n_false]

theorem byte_and_255 {x : Nat} (h : x < 256) : x &&& 255 = x := by
  have h' : x < 2 ^ 8 := h
  have := Nat.and_pow_two_sub_one_of_lt_two_pow h'
  simpa using this

/-- C6: a TCP packet carrying FIN or RST which the flow fast path processes
leaves `tcp_flow` (IPv4) resp. `tcp6_flow` (IPv6) without an entry for the
packet's 5-tuple once the run — including the tail-called stateful stage or
suricata gate, or the fall-through — completes: the entry is deleted by
`cleanup_fin_rst` and nothing re-installs it in the same run. -/
theorem c6_fin_rst_evicts (tc : Bool) (T : Tables) (p : List Nat)
    (tF tL tS tU tUf : Nat) (hw : Wf p) (hfin : finRstOf p = 1) :
    ((flowCtxOf p).is_ipv4 = 1 →
      (xdp_flow_fastpath tc T p tF tL tS tU tUf).2.tcp_flow (flowCtxOf p).key_v4 = none) ∧
    ((flowCtxOf p).is_ipv6 = 1 →
      (xdp_flow_fastpath tc T p tF tL tS tU tUf).2.tcp6_flow (flowCtxOf p).key_v6 = none) := by
  obtain ⟨hflow4, hflow6⟩ := fastpath_flow_tables tc T p tF tL tS tU tUf
  have hproto_lt : (flowCtxOf p).key_v4.proto < 256 := by
    show (flowCtxOf p).l4_proto < 256
    simp only [flowCtxOf]
    have h23 := ldN_getD_lt hw 23 1
    have h20 := ldN_getD_lt hw 20 1
    norm_num at h23 h20
    rcases le_one_cases (b2n_le_one (((ldN p 12 2).getD 0) == 0x0008)) with h4 | h4
    · rcases le_one_cases (b2n_le_one (((ldN p 12 2).getD 0) == 0xDD86)) with h6 | h6 <;>
        rw [h4, h6] <;> omega
    · have he : ((ldN p 12 2).getD 0) = 0x0008 := by
        simpa using b2n_eq_one.mp h4
      rw [h4, show (((ldN p 12 2).getD 0) == 0xDD86) = false by simp [he], b2n_false]
      omega
  constructor
  · intro h4
    have h6 := flowCtx_v4_not_v6 h4
    rw [hflow4]
    simp only [cleanup_fin_rst, lookup_hits]
    have hfr : is_fin_rst ((flowCtxOf p).is_ipv4 *
        ((ldN p (14 + (flowCtxOf p).hdr_len + 13) 1).getD 0) +
        (flowCtxOf p).is_ipv6 * ((ldN p 67 1).getD 0)) &&& (flowCtxOf p).is_tcp = 1 :=
      hfin
    rw [hfr, h4]
    show mdel _ { (flowCtxOf p).key_v4 with
      proto := (flowCtxOf p).key_v4.proto &&& neg8 (1 &&& 1) } _ = none
    rw [show neg8 (1 &&& 1) = 255 by decide, byte_and_255 hproto_lt]
    exact mdel_self _ _
  · intro h6
    have h4 := flowCtx_v6_not_v4 h6
    rw [hflow6]
    simp only [cleanup_fin_rst, lookup_hits]
    have hfr : is_fin_rst ((flowCtxOf p).is_ipv4 *
        ((ldN p (14 + (flowCtxOf p).hdr_len + 13) 1).getD 0) +
        (flowCtxOf p).is_ipv6 * ((ldN p 67 1).getD 0)) &&& (flowCtxOf p).is_tcp = 1 :=
      hfin
    rw [hfr, h6]
    show mdel _ { (flowCtxOf p).key_v6 with
      proto := (flowCtxOf p).key_v6.proto &&& neg8 (1 &&& 1) } _ = none
    have hproto6 : (flowCtxOf p).key_v6.proto < 256 := hproto_lt
    rw [show neg8 (1 &&& 1) = 255 by decide, byte_and_255 hproto6]
    exact mdel_self _ _

/-- Concrete IPv4 TCP RST packet 9.9.9.9:12345 → 10.0.0.2:80. -/
def c6pkt : List Nat :=
  [0, 0, 0, 0, 0, 0, 0, 0, 0, 0, 0, 0,
   0x08, 0x00,
   0x45, 0, 0, 48, 0, 0, 0, 0, 64, 6, 0, 0,
   9, 9, 9, 9, 10, 0, 0, 2,
   0x30, 0x39, 0, 80,
   0, 0, 0, 0, 0, 0, 0, 0,
   0x50, 0x04]

/-- Tables whose `tcp_flow` has an entry at every key. -/
def c6T : Tables :=
  { t0 with tcp_flow := fun _ => some 5 }

theorem c6_fin_rst_evicts_witness :
    Wf c6pkt ∧ finRstOf c6pkt = 1 ∧ (flowCtxOf c6pkt).is_ipv4 = 1 ∧
    c6T.tcp_flow (flowCtxOf c6pkt).key_v4 = some 5 ∧
    (xdp_flow_fastpath true c6T c6pkt 0 0 0 0 0).2.tcp_flow (flowCtxOf c6pkt).key_v4 = none :=
  ⟨by decide, by decide, by decide, rfl,
    (c6_fin_rst_evicts true c6T c6pkt 0 0 0 0 0 (by decide) (by decide)).1 (by decide)⟩

/-! ## Whitelist CLI (src/scripts/wl.c) -/

/-- `wl add X`: both CLI invocations parse the same textual IP into the same
`{family, pad, addr}` key, then `add` does `bpf_map_update_elem(fd, &k, &one,
BPF_ANY)` — insert or overwrite with value 1 on the hash map. -/
def wl_add (m : WlKey → Option Nat) (k : WlKey) : WlKey → Option Nat :=
  mupd m k 1

/-- `wl del X`: `bpf_map_delete_elem(fd, &k)` — remove the key. -/
def wl_del (m : WlKey → Option Nat) (k : WlKey) : WlKey → Option Nat :=
  mdel m k

/-- A key already present in the initial table. -/
def c9k : WlKey := ⟨2, ⟨0x04030201, 0, 0, 0⟩⟩

/-- Initial whitelist state that already contains `c9k`. -/
def c9m : WlKey → Option Nat :=
  fun k => if k = c9k then some 1 else none

/-- C9 counterexample: if the key is already whitelisted, `add` overwrites it
and `del` then removes it, so the final table differs from the initial one at
key X — the round trip is not an identity for every initial state. -/
theorem c9_roundtrip_counterexample :
    wl_del (wl_add c9m c9k) c9k c9k ≠ c9m c9k := by
  decide

/-- C9 (amended): for every key X *absent from the initial table*, running
`wl add X` then `wl del X` leaves the whitelist table bit-identical to its
initial state at key X. -/
theorem c9_roundtrip (m : WlKey → Option Nat) (k : WlKey) (h : m k = none) :
    wl_del (wl_add m k) k k = m k := by
  simp [wl_add, wl_del, mupd, mdel, h]

def c9empty : WlKey → Option Nat := fun _ => none

theorem c9_roundtrip_witness :
    c9empty c9k = none ∧ wl_del (wl_add c9empty c9k) c9k c9k = c9empty c9k :=
  ⟨rfl, c9_roundtrip c9empty c9k rfl⟩

end CX
